import Mathlib

/-!
Shallow embedding of the xlog logging library (Go) and verification of the
frozen claims about it.

The embedding translates the Go source (xlog.go, errors.go, rec_direct.go,
rec_syslog.go) into executable Lean definitions:

* `MsgFlagT` (Go `uint16`) is modelled as `Nat`; all bit operations go
  through 16-bit masks exactly as in the source (`andNot x m` is Go's
  `x &^ m` on `uint16`, i.e. `x &&& (0xFFFF ^^^ m)`), and where a theorem
  needs the 16-bit range it carries `flags < 65536` as a hypothesis.
* Go maps keyed by `RecorderID` are modelled as association lists.  The
  logger's four per-recorder maps (`recorders`, `recordersInit`,
  `severityMasks`, `severityOrder`) always share one key set in any state
  reachable through the API (the source treats a mismatch as an unreachable
  internal error / panic), so they are merged into one association list
  `Logger.recs : List (RecorderID × RecEntry)`; the source's
  "missing valid id" panic branches are kept where they remain reachable
  and noted in comments where the merged map makes them unrepresentable.
* Channel traffic is modelled by value: a method returns the list of
  control signals / messages it sent.  The initialisation round trip over
  a recorder's control channel (including the optional objects/listening
  path of `Initialise`) is abstracted by an oracle
  `attempt : RecorderID → Option RErr` giving the outcome the recorder
  reports for this logger's init request.
* Go `panic` is modelled explicitly: `WriteMsg` returns a `panicked` flag,
  the severity protector has a dedicated fatal outcome.
* The `for i, recID := range recorders` loops that swap-remove from the
  slice they are ranging over are modelled with Go's exact semantics: the
  range length is captured once, the underlying array is shared, and every
  index expression is bounds-checked against the current slice length
  (`vLoop` below).
-/

namespace Xlog

/-! ## Message flags (xlog.go lines 29-69) -/

abbrev RecorderID := String
abbrev MsgFlagT := Nat

def Emerg    : MsgFlagT := 0x01
def Alert    : MsgFlagT := 0x02
def Critical : MsgFlagT := 0x04
def Error    : MsgFlagT := 0x08
def Warning  : MsgFlagT := 0x10
def Notice   : MsgFlagT := 0x20
def Info     : MsgFlagT := 0x40
def Debug    : MsgFlagT := 0x80
def CustomB1 : MsgFlagT := 0x1000
def CustomB2 : MsgFlagT := 0x2000

def StackTrace      : MsgFlagT := 0x100
def StackTraceShort : MsgFlagT := 0x800

def SeverityShadowMask  : MsgFlagT := 0xCF00
def AttributeShadowMask : MsgFlagT := 0x30FF

def SeverityAll     : MsgFlagT := 0x30FF
def SeverityDefault : MsgFlagT := 0x00FF

def defaultSeverity : MsgFlagT := Info

/-- Go's `x &^ m` (AND NOT) on `uint16` values. -/
def andNot (x m : MsgFlagT) : MsgFlagT := x &&& (0xFFFF ^^^ m)

/-- The default severity order installed by `defaultSeverityOrder()`
(xlog.go lines 96-109); the container/list is modelled as a `List`. -/
def defaultSeverityOrder : List MsgFlagT :=
  [Emerg, Alert, Critical, Error, Warning, Notice, Info, Debug, CustomB1, CustomB2]

/-! ## Log messages (xlog.go lines 174-228).
`time` is an abstract instant, `Data` an opaque handle. -/

structure LogMsg where
  time : Nat
  flags : MsgFlagT
  content : String
  Data : Nat
  deriving Repr, DecidableEq

/-! ## Errors (errors.go) -/

/-- Errors that can be attached to a single recorder id inside a
`BatchResult`: the sentinel `ErrWrongRecorderID` / `ErrNotListening`, the
test hook `_ErrFalseInit`, an internal error value (carrying its message),
or an arbitrary error reported by a recorder over the init reply channel
(abstracted by a numeric code). -/
inductive RErr where
  | wrongRecorderID
  | notListening
  | falseInit
  | internalVal (s : String)
  | recorder (code : Nat)
  deriving Repr, DecidableEq

/-- Map assignment `br.errors[rec] = err` on the association list:
replace the value at an existing key, otherwise add the key. -/
def upsertErr : List (RecorderID × RErr) → RecorderID → RErr → List (RecorderID × RErr)
  | [], rec, err => [(rec, err)]
  | (k, v) :: rest, rec, err =>
    if k = rec then (rec, err) :: rest else (k, v) :: upsertErr rest rec err

/-- Map deletion `delete(br.errors, rec)` (at most one entry per key). -/
def removeErrKey : List (RecorderID × RErr) → RecorderID → List (RecorderID × RErr)
  | [], _ => []
  | (k, v) :: rest, rec => if k = rec then rest else (k, v) :: removeErrKey rest rec

/-- Go's swap-removal of index `i` from a slice:
`a[i] = a[len-1]; a[len-1] = zero; a = a[:len-1]`. -/
def swapRemoveAt (l : List RecorderID) (i : Nat) : List RecorderID :=
  (((l.set i (l.getLastD "")).set (l.length - 1) "").take (l.length - 1))

/-- BatchResult (errors.go lines 55-134): per-recorder failures, the list of
successes, and the summary template. -/
structure BatchResult where
  errors : List (RecorderID × RErr) := []
  successful : List RecorderID := []
  errMessage : String := ""
  deriving Repr, DecidableEq

/-- `BatchResult.Fail` (errors.go lines 90-108): record the error and
swap-remove the id from the success list if present. -/
def BatchResult.fail (br : BatchResult) (rec : RecorderID) (err : RErr) : BatchResult :=
  let errors := upsertErr br.errors rec err
  let successful :=
    match br.successful.findIdx? (fun r => r = rec) with
    | some i => swapRemoveAt br.successful i
    | none => br.successful
  { errors := errors, successful := successful, errMessage := br.errMessage }

/-- `BatchResult.OK` (errors.go lines 110-129): skip ids already recorded as
successful, otherwise append and drop the id from the error map. -/
def BatchResult.okRec (br : BatchResult) (rec : RecorderID) : BatchResult :=
  if br.successful.contains rec then br
  else { errors := removeErrKey br.errors rec,
         successful := br.successful ++ [rec],
         errMessage := br.errMessage }

def BatchResult.setMsg (br : BatchResult) (s : String) : BatchResult :=
  { br with errMessage := s }

/-- Errors returned by logger methods; `batch` wraps a partial result
(`BatchResult.GetErrors() != nil` is `br.errors ≠ []`). -/
inductive Err where
  | wrongRecorderID
  | notInitialised
  | wrongFlagValue
  | wrongParameter
  | noRecorders
  | notWhereToWrite
  | internal (s : String)
  | batch (br : BatchResult)
  deriving Repr, DecidableEq

/-! ## Logger state (xlog.go lines 284-333) -/

/-- Per-recorder state of one logger: the entry of the merged
`recordersInit` / `severityMasks` / `severityOrder` maps.  The channel
interface itself carries no state relevant to the claims. -/
structure RecEntry where
  init : Bool
  mask : MsgFlagT
  order : List MsgFlagT
  deriving Repr, DecidableEq

structure Logger where
  initialised : Bool
  recs : List (RecorderID × RecEntry)
  defaults : List RecorderID
  falseInitList : List RecorderID
  deriving Repr, DecidableEq

/-- `NewLogger()`. -/
def newLogger : Logger :=
  { initialised := false, recs := [], defaults := [], falseInitList := [] }

/-- The two process-wide configuration flags (`CfgGlobalDisable`,
`CfgAutoStartListening`), passed explicitly to each method. -/
structure Config where
  globalDisable : Bool
  autoStartListening : Bool
  deriving Repr, DecidableEq

def cfgDefault : Config := { globalDisable := false, autoStartListening := true }

/-- Control signals a logger method can emit towards a recorder. -/
inductive Sig where
  | sigInit
  | sigClose
  | sigStop
  deriving Repr, DecidableEq

/-- Map lookup on the merged per-recorder association list. -/
def findRec : List (RecorderID × RecEntry) → RecorderID → Option RecEntry
  | [], _ => none
  | (k, e) :: rest, id => if k = id then some e else findRec rest id

/-- Map assignment for an existing key. -/
def updateRec : List (RecorderID × RecEntry) → RecorderID → RecEntry → List (RecorderID × RecEntry)
  | [], _, _ => []
  | (k, v) :: rest, id, e => if k = id then (id, e) :: rest else (k, v) :: updateRec rest id e

/-- Map deletion. -/
def removeRec : List (RecorderID × RecEntry) → RecorderID → List (RecorderID × RecEntry)
  | [], _ => []
  | (k, v) :: rest, id => if k = id then rest else (k, v) :: removeRec rest id

def recsKeys (recs : List (RecorderID × RecEntry)) : List RecorderID :=
  recs.map Prod.fst

/-! ## RegisterRecorder (xlog.go lines 345-418) -/

/-- `RegisterRecorder`.  `intrfValid` is false when one of the interface
channels is nil.  On success the recorder is added with `init = false`,
`mask = SeverityAll` and the default severity order, appended to the
defaults iff `asDefault`, and `initialised` is cleared. -/
def registerRecorder (cfg : Config) (L : Logger) (id : RecorderID)
    (intrfValid : Bool) (asDefault : Bool) : Logger × Option Err :=
  if cfg.globalDisable then (L, none)
  else if id = "" then (L, some .wrongParameter)
  else if ¬intrfValid then (L, some .wrongParameter)
  else if (findRec L.recs id).isSome then (L, some .wrongRecorderID)
  else
    ({ L with
        recs := L.recs ++ [(id, { init := false, mask := SeverityAll,
                                  order := defaultSeverityOrder })],
        defaults := if asDefault then L.defaults ++ [id] else L.defaults,
        initialised := false },
     none)

/-! ## UnregisterRecorder (xlog.go lines 422-486) -/

/-- `UnregisterRecorder`: sends a close signal when the recorder is
initialised for this logger, swap-removes the id from the defaults, clears
`initialised` only when the registry held exactly one recorder, and deletes
the per-recorder entries.  (The source's "missing valid id
(.recordersInit)" panic is unreachable in the merged-map model.) -/
def unregisterRecorder (cfg : Config) (L : Logger) (id : RecorderID) :
    Logger × Option Err × List (RecorderID × Sig) :=
  if cfg.globalDisable then (L, none, [])
  else if id = "" then (L, some .wrongParameter, [])
  else if L.recs.length = 0 then (L, some .noRecorders, [])
  else
    match findRec L.recs id with
    | none => (L, some .wrongRecorderID, [])
    | some e =>
      let sigs := if e.init then [(id, Sig.sigClose)] else []
      let defaults :=
        match L.defaults.findIdx? (fun r => r = id) with
        | some i => swapRemoveAt L.defaults i
        | none => L.defaults
      let initialised := if L.recs.length = 1 then false else L.initialised
      ({ L with defaults := defaults, initialised := initialised,
                recs := removeRec L.recs id },
       none, sigs)

/-! ## Close (xlog.go lines 567-582).
Note that `Close` has no `CfgGlobalDisable` check in the source. -/

def closeLogger (_cfg : Config) (L : Logger) : Logger × List (RecorderID × Sig) :=
  if ¬L.initialised then (L, [])
  else if L.recs.length = 0 then (L, [])
  else ({ L with initialised := false },
        L.recs.map (fun p => (p.1, Sig.sigClose)))

/-! ## Initialise (xlog.go lines 489-562) -/

/-- The body of the `main_cycle` loop of `Initialise` over the registry.
`attempt id` is the outcome of the init round trip for `id` (covering the
optional objects/not-listening path as well as the error the recorder
sends back on the reply channel); `falseInitL` is the `_falseInit` test
hook.  Already-initialised recorders are skipped. -/
def initLoop (attempt : RecorderID → Option RErr) (falseInitL : List RecorderID) :
    List (RecorderID × RecEntry) → BatchResult →
    List (RecorderID × RecEntry) × BatchResult
  | [], br => ([], br)
  | (id, e) :: rest, br =>
    if e.init then
      let r := initLoop attempt falseInitL rest br
      ((id, e) :: r.1, r.2)
    else
      match attempt id with
      | some err =>
        let r := initLoop attempt falseInitL rest (br.fail id err)
        ((id, e) :: r.1, r.2)
      | none =>
        if falseInitL.contains id then
          let r := initLoop attempt falseInitL rest (br.fail id .falseInit)
          ((id, e) :: r.1, r.2)
        else
          let r := initLoop attempt falseInitL rest (br.okRec id)
          ((id, { e with init := true }) :: r.1, r.2)

/-- `Initialise`: short-circuits on the global-disable flag and on an
already-initialised logger, rejects an empty registry, runs the init loop,
and flips `initialised` to true exactly when the accumulated `BatchResult`
holds no errors. -/
def initialise (cfg : Config) (L : Logger) (attempt : RecorderID → Option RErr) :
    Logger × Option Err :=
  if cfg.globalDisable then (L, none)
  else if L.initialised then (L, none)
  else if L.recs.length = 0 then (L, some .noRecorders)
  else
    let br0 := BatchResult.setMsg {} "some of the given recorders are not initialised"
    let r := initLoop attempt L.falseInitList L.recs br0
    if r.2.errors ≠ [] then ({ L with recs := r.1 }, some (.batch r.2))
    else ({ L with recs := r.1, initialised := true }, none)

/-! ## SetSeverityMask (xlog.go lines 810-843) -/

def setSeverityMask (cfg : Config) (L : Logger) (recorder : RecorderID)
    (flags : MsgFlagT) : Logger × Option Err :=
  if cfg.globalDisable then (L, none)
  else if recorder = "" then (L, some .wrongParameter)
  else if L.recs.length = 0 then (L, some .noRecorders)
  else
    match findRec L.recs recorder with
    | none => (L, some .wrongRecorderID)
    | some e =>
      ({ L with recs := updateRec L.recs recorder
                  { e with mask := andNot flags SeverityShadowMask } },
       none)

/-! ## Severity protector (xlog.go lines 975-992) -/

/-- Outcome of `severityProtector`: success with the rewritten flags, an
internal error value (nil or empty order list), or a panic
(`internalCritical`, when no entry of the order list matches). -/
inductive ProtRes where
  | ok (flags : MsgFlagT)
  | errVal
  | fatal
  deriving Repr, DecidableEq

/-- The walk over the order list: the first entry whose bit is set in the
severity portion of the flags wins; all severity bits are cleared
(`*flags &^ (^SeverityShadowMask)`) and the winner is set. -/
def protLoop (flags : MsgFlagT) : List MsgFlagT → ProtRes
  | [] => .fatal
  | sev :: rest =>
    if andNot flags SeverityShadowMask &&& sev > 0 then
      .ok ((andNot flags (0xFFFF ^^^ SeverityShadowMask)) ||| sev)
    else protLoop flags rest

/-- `severityProtector`; a `none` order list is Go's nil `*list.List`
(missing map key). -/
def severityProtector (orderlist : Option (List MsgFlagT)) (flags : MsgFlagT) : ProtRes :=
  match orderlist with
  | none => .errVal
  | some l => if l.length = 0 then .errVal else protLoop flags l

/-! ## Stack-trace attribute handling (xlog.go lines 911-934).
`debug.Stack()` is ambient input; it enters as the `stackText` parameter. -/

/-- The `for i := 1; i < len(lines)-1; i += 2` accumulator loop. -/
def collectOdd (lines : List String) (i : Nat) : List String :=
  if h : i < lines.length - 1 then
    lines.getD i "" :: collectOdd lines (i + 2)
  else []
  termination_by lines.length - i
  decreasing_by omega

/-- The short stack-trace block built for `StackTraceShort`. -/
def shortTraceBlock (stackText : String) : String :=
  let lines := stackText.splitOn "\n"
  let accumulator := collectOdd lines 1
  let str := "---------- stack trace ----------"
  let str := str ++ "   " ++ lines.getD 0 "" ++ "\n"
  let str := str ++ String.join ((accumulator.drop 1).map (fun s => s ++ "\n"))
  str ++ "---------------------------------"

/-- The full stack-trace block built for `StackTrace`. -/
def fullTraceBlock (stackText : String) : String :=
  "---------- stack trace ----------" ++ "   " ++ stackText
    ++ "---------------------------------"

def applyStackTrace (msg : LogMsg) (stackText : String) : LogMsg :=
  if msg.flags &&& StackTraceShort > 0 then
    { msg with content := msg.content ++ "\n" ++ shortTraceBlock stackText }
  else if msg.flags &&& StackTrace > 0 then
    { msg with content := msg.content ++ "\n" ++ fullTraceBlock stackText }
  else msg

/-- If the severity portion is zero, OR in the default severity
(xlog.go lines 936-939). -/
def normalizeSeverity (msg : LogMsg) : LogMsg :=
  if andNot msg.flags SeverityShadowMask = 0 then
    { msg with flags := msg.flags ||| defaultSeverity }
  else msg

/-! ## WriteMsg recipient validation (xlog.go lines 895-906).

Go semantics of `for i, recID := range recorders` with swap-removal inside:
the iteration count is the length captured when the range starts, the
underlying array is shared with the shrinking slice variable, and the
removal's index expressions are bounds-checked against the current slice
length.  `arr` is the underlying array (fixed length), `curLen` the current
slice length, `i` the range index and `r` the remaining iterations
(`i + r` = captured length).  `none` is an index-out-of-range panic. -/

def vLoop (reg : List (RecorderID × RecEntry)) (arr : List RecorderID)
    (curLen : Nat) (br : BatchResult) (i r : Nat) :
    Option (List RecorderID × Nat × BatchResult) :=
  match r with
  | 0 => some (arr, curLen, br)
  | r' + 1 =>
    let recID := arr.getD i ""
    if (findRec reg recID).isSome then vLoop reg arr curLen br (i + 1) r'
    else
      let br := br.fail recID .wrongRecorderID
      if i < curLen ∧ 0 < curLen then
        let last := arr.getD (curLen - 1) ""
        vLoop reg ((arr.set i last).set (curLen - 1) "") (curLen - 1) br (i + 1) r'
      else none

/-- Validation of an explicit recipient list; on normal termination the
remaining recipients are the first `curLen` entries of the array. -/
def validateRecipients (reg : List (RecorderID × RecEntry))
    (recorders : List RecorderID) (br : BatchResult) :
    Option (List RecorderID × BatchResult) :=
  match vLoop reg recorders recorders.length br 0 recorders.length with
  | none => none
  | some (arr, curLen, br) => some (arr.take curLen, br)

/-! ## WriteMsg dispatch loop and result (xlog.go lines 863-969) -/

/-- Result of a `WriteMsg` call: the (possibly mutated) caller message, the
messages sent on recorder channels in order, the internal `BatchResult`,
the returned error, and whether the call panicked. -/
structure WMOut where
  msgOut : Option LogMsg
  sends : List (RecorderID × LogMsg)
  br : BatchResult
  ret : Option Err
  panicked : Bool
  deriving Repr, DecidableEq

/-- The per-recipient loop (xlog.go lines 941-964): run the severity
protector (mutating the shared message flags), then the severity-mask
filter, then send a value copy of the message.  A protector error value is
recorded in the batch result and the recipient skipped; a protector panic,
or a recipient missing from the severity-mask map, aborts the call
(`internalCritical`). -/
def deliverLoop (recsMap : List (RecorderID × RecEntry)) :
    List RecorderID → LogMsg → List (RecorderID × LogMsg) → BatchResult →
    LogMsg × List (RecorderID × LogMsg) × BatchResult × Bool
  | [], msg, sends, br => (msg, sends, br, false)
  | recID :: rest, msg, sends, br =>
    match severityProtector ((findRec recsMap recID).map (fun e => e.order)) msg.flags with
    | .errVal =>
      deliverLoop recsMap rest msg sends
        (br.fail recID (.internalVal "severityProtector: wrong orderlist parameter value"))
    | .fatal => (msg, sends, br, true)
    | .ok f =>
      let msg := { msg with flags := f }
      match findRec recsMap recID with
      | none => (msg, sends, br, true)
      | some e =>
        if andNot msg.flags SeverityShadowMask &&& e.mask > 0 then
          deliverLoop recsMap rest msg (sends ++ [(recID, msg)]) (br.okRec recID)
        else
          deliverLoop recsMap rest msg sends br

def wmEarly (msgO : Option LogMsg) (ret : Option Err) : WMOut :=
  { msgOut := msgO, sends := [], br := {}, ret := ret, panicked := false }

/-- `WriteMsg`.  Note the final `return nil` (xlog.go line 968): the
accumulated `BatchResult` is never returned, the `if br.GetErrors() != nil`
return is commented out in the source. -/
def writeMsg (cfg : Config) (L : Logger) (recorders : List RecorderID)
    (msgO : Option LogMsg) (stackText : String) : WMOut :=
  if cfg.globalDisable then wmEarly msgO none
  else
    match msgO with
    | none => wmEarly none (some .wrongParameter)
    | some msg0 =>
      if ¬L.initialised then wmEarly msgO (some .notInitialised)
      else if L.recs.length = 0 then wmEarly msgO (some .noRecorders)
      else if L.defaults.length = 0 ∧ recorders.length = 0 then
        wmEarly msgO (some .notWhereToWrite)
      else
        let br0 := BatchResult.setMsg {} "an error occurred in some of the given recorders"
        match (if recorders.length > 0
               then validateRecipients L.recs recorders br0
               else some (L.defaults, br0)) with
        | none => { msgOut := msgO, sends := [], br := {}, ret := none, panicked := true }
        | some (targets, br1) =>
          let msg1 := applyStackTrace msg0 stackText
          let msg2 := normalizeSeverity msg1
          let r := deliverLoop L.recs targets msg2 [] br1
          { msgOut := some r.1, sends := r.2.1, br := r.2.2.1, ret := none,
            panicked := r.2.2.2 }

/-! ## DefaultsSet / DefaultsAdd / DefaultsRemove (xlog.go lines 585-707) -/

/-- The validation loop of `DefaultsSet` (xlog.go lines 600-610): the same
swap-removal over the shared backing array as the `WriteMsg` validation
loop (the range length is captured once, unknown ids are failed and
swap-removed), but each registered id is additionally recorded with
`br.OK`.  `none` is the index-out-of-range panic. -/
def dsLoop (reg : List (RecorderID × RecEntry)) (arr : List RecorderID)
    (curLen : Nat) (br : BatchResult) (i r : Nat) :
    Option (List RecorderID × Nat × BatchResult) :=
  match r with
  | 0 => some (arr, curLen, br)
  | r' + 1 =>
    let recID := arr.getD i ""
    if (findRec reg recID).isSome then
      dsLoop reg arr curLen (br.okRec recID) (i + 1) r'
    else
      let br := br.fail recID .wrongRecorderID
      if i < curLen ∧ 0 < curLen then
        let last := arr.getD (curLen - 1) ""
        dsLoop reg ((arr.set i last).set (curLen - 1) "") (curLen - 1) br (i + 1) r'
      else none

/-- `DefaultsSet` (xlog.go lines 585-618): validates the given list,
replaces the logger's defaults with the surviving prefix (before the error
check, so also on partial failure), and returns the `BatchResult` iff it
holds errors.  The boolean marks the validation loop's panic. -/
def defaultsSet (cfg : Config) (L : Logger) (recorders : List RecorderID) :
    Logger × Option Err × Bool :=
  if cfg.globalDisable then (L, none, false)
  else if L.recs.length = 0 then (L, some .noRecorders, false)
  else
    let br0 := BatchResult.setMsg {} "some of given recorder IDs are invalid"
    match dsLoop L.recs recorders recorders.length br0 0 recorders.length with
    | none => (L, none, true)
    | some (arr, curLen, br) =>
      let L := { L with defaults := arr.take curLen }
      if br.errors ≠ [] then (L, some (.batch br), false)
      else (L, none, false)

/-- The `main_iter` loop of `DefaultsAdd` (xlog.go lines 646-657): each
surviving id not already among the defaults is appended and recorded OK
(later iterations see the earlier appends). -/
def daLoop : List RecorderID → List RecorderID → BatchResult →
    List RecorderID × BatchResult
  | [], defaults, br => (defaults, br)
  | recID :: rest, defaults, br =>
    if defaults.contains recID then daLoop rest defaults br
    else daLoop rest (defaults ++ [recID]) (br.okRec recID)

/-- `DefaultsAdd` (xlog.go lines 621-663): the validation loop is
identical to `WriteMsg`'s (`vLoop`, unknown ids failed and swap-removed,
no OK), then `main_iter` appends the surviving ids to the defaults. -/
def defaultsAdd (cfg : Config) (L : Logger) (recorders : List RecorderID) :
    Logger × Option Err × Bool :=
  if cfg.globalDisable then (L, none, false)
  else if L.recs.length = 0 then (L, some .noRecorders, false)
  else
    let br0 := BatchResult.setMsg {} "some of given recorder IDs are invalid"
    match vLoop L.recs recorders recorders.length br0 0 recorders.length with
    | none => (L, none, true)
    | some (arr, curLen, br) =>
      let r := daLoop (arr.take curLen) L.defaults br
      let L := { L with defaults := r.1 }
      if r.2.errors ≠ [] then (L, some (.batch r.2), false)
      else (L, none, false)

/-- The per-id removal loop of `DefaultsRemove` (xlog.go lines 693-700):
ranges over the captured length of the defaults, swap-removing every
matching cell from the shared array and recording OK per removal.  `none`
is an index-out-of-range panic (never reached for a non-empty id: every
removal plants `""` at the freed slot). -/
def drLoop (recID : RecorderID) (arr : List RecorderID)
    (curLen : Nat) (br : BatchResult) (i r : Nat) :
    Option (List RecorderID × Nat × BatchResult) :=
  match r with
  | 0 => some (arr, curLen, br)
  | r' + 1 =>
    let defID := arr.getD i ""
    if defID = recID then
      if i < curLen ∧ 0 < curLen then
        let last := arr.getD (curLen - 1) ""
        drLoop recID ((arr.set i last).set (curLen - 1) "") (curLen - 1)
          (br.okRec recID) (i + 1) r'
      else none
    else drLoop recID arr curLen br (i + 1) r'

/-- The outer loop of `DefaultsRemove` (xlog.go lines 692-701): each
surviving id is removed from the current defaults in turn. -/
def drOuter : List RecorderID → List RecorderID → BatchResult →
    Option (List RecorderID × BatchResult)
  | [], defaults, br => some (defaults, br)
  | recID :: rest, defaults, br =>
    match drLoop recID defaults defaults.length br 0 defaults.length with
    | none => none
    | some (arr, curLen, br) => drOuter rest (arr.take curLen) br

/-- `DefaultsRemove` (xlog.go lines 666-707): validation loop as in
`WriteMsg`, then the nested removal of the surviving ids from the
defaults. -/
def defaultsRemove (cfg : Config) (L : Logger) (recorders : List RecorderID) :
    Logger × Option Err × Bool :=
  if cfg.globalDisable then (L, none, false)
  else if L.recs.length = 0 then (L, some .noRecorders, false)
  else
    let br0 := BatchResult.setMsg {} "some of given recorder IDs are invalid"
    match vLoop L.recs recorders recorders.length br0 0 recorders.length with
    | none => (L, none, true)
    | some (arr, curLen, br) =>
      match drOuter (arr.take curLen) L.defaults br with
      | none => (L, none, true)
      | some (defaults, br) =>
        let L := { L with defaults := defaults }
        if br.errors ≠ [] then (L, some (.batch br), false)
        else (L, none, false)

/-! ## ChangeSeverityOrder (xlog.go lines 713-807) -/

/-- `ssDirection` (xlog.go lines 111-116). -/
inductive SsDirection where
  | before
  | after
  deriving Repr, DecidableEq

/-- Re-insertion of the moved element before/after the target
(`list.MoveBefore` / `list.MoveAfter` on the unlinked list). -/
def insertNear (src trg : MsgFlagT) (d : SsDirection) : List MsgFlagT → List MsgFlagT
  | [] => []
  | x :: rest =>
    if x = trg then
      match d with
      | .before => src :: x :: rest
      | .after => x :: src :: rest
    else x :: insertNear src trg d rest

/-- `MoveBefore`/`MoveAfter` of the source flag relative to the target
flag in the severity-order list: unlink the source element, re-insert it
next to the target. -/
def moveFlag (l : List MsgFlagT) (src trg : MsgFlagT) (d : SsDirection) :
    List MsgFlagT :=
  insertNear src trg d (l.erase src)

/-- `ChangeSeverityOrder` (xlog.go lines 713-807).  The nil-map internal
errors are unreachable in the merged-map model; the two "can't find flag"
`internalCritical` panics (xlog.go lines 784-793) are the boolean
outcome. -/
def changeSeverityOrder (cfg : Config) (L : Logger) (recorder : RecorderID)
    (srcFlag : MsgFlagT) (dir : SsDirection) (trgFlag : MsgFlagT) :
    Logger × Option Err × Bool :=
  if cfg.globalDisable then (L, none, false)
  else if recorder = "" then (L, some .wrongParameter, false)
  else if L.recs.length = 0 then (L, some .noRecorders, false)
  else
    match findRec L.recs recorder with
    | none => (L, some .wrongRecorderID, false)
    | some e =>
      let srcFlag := andNot srcFlag SeverityShadowMask
      let trgFlag := andNot trgFlag SeverityShadowMask
      if srcFlag = 0 then (L, some .wrongFlagValue, false)
      else if trgFlag = 0 then (L, some .wrongFlagValue, false)
      else if srcFlag = trgFlag then (L, some .wrongFlagValue, false)
      else if ¬e.order.contains srcFlag then (L, none, true)
      else if ¬e.order.contains trgFlag then (L, none, true)
      else
        let e2 := { e with order := moveFlag e.order srcFlag trgFlag dir }
        ({ L with recs := updateRec L.recs recorder e2 }, none, false)

/-! ## Write (xlog.go lines 850-857) -/

/-- `Write`: short-circuits on the global-disable flag (before even
building the message), otherwise builds a fresh message carrying the given
flags and formatted text (`NewLogMsg().SetFlags(flags)` then `Setf`; `now`
is the `time.Now()` of `NewLogMsg`) and calls `WriteMsg(nil, msg)`. -/
def write (cfg : Config) (L : Logger) (flags : MsgFlagT) (text : String)
    (now : Nat) (stackText : String) : WMOut :=
  if cfg.globalDisable then wmEarly none none
  else
    writeMsg cfg L []
      (some { time := now, flags := flags, content := text, Data := 0 }) stackText

/-! ## Recorder actors: reference-counted initialise/close.

`syslogRecorder` (rec_syslog.go lines 181-202 of the current draft): the
physical sink (the syslog connection) is opened on the 0→1 transition —
the open can fail, in which case the counter is not incremented — and
closed on the 1→0 transition.  `ioDirectRecorder` (rec_direct.go lines
209-224): `initialise` only increments the counter (the writer exists from
construction; there is no physical open), `close` runs the optional
on-close hook on the 1→0 transition.  The counters are Go `int`s, hence
`Int` here. -/

structure SyslogRec where
  refCounter : Int
  sinkOpen : Bool
  deriving Repr, DecidableEq

/-- `syslogRecorder.initialise`; `openOK` tells whether `syslog.New`
succeeds if it is attempted.  Returns the new state and whether the init
reported success (a nil error). -/
def SyslogRec.initialise (R : SyslogRec) (openOK : Bool) : SyslogRec × Bool :=
  if R.refCounter = 0 then
    if openOK then ({ refCounter := R.refCounter + 1, sinkOpen := true }, true)
    else (R, false)
  else ({ R with refCounter := R.refCounter + 1 }, true)

/-- `syslogRecorder.close`. -/
def SyslogRec.close (R : SyslogRec) : SyslogRec :=
  if R.refCounter = 0 then R
  else if R.refCounter = 1 then
    { refCounter := R.refCounter - 1, sinkOpen := false }
  else { R with refCounter := R.refCounter - 1 }

structure IoDirectRec where
  refCounter : Int
  closerCalls : Nat
  deriving Repr, DecidableEq

/-- `ioDirectRecorder.initialise`. -/
def IoDirectRec.initialise (R : IoDirectRec) : IoDirectRec :=
  { R with refCounter := R.refCounter + 1 }

/-- `ioDirectRecorder.close`; `closerCalls` counts the 1→0 transitions on
which the on-close hook runs. -/
def IoDirectRec.close (R : IoDirectRec) : IoDirectRec :=
  if R.refCounter = 0 then R
  else if R.refCounter = 1 then
    { refCounter := R.refCounter - 1, closerCalls := R.closerCalls + 1 }
  else { R with refCounter := R.refCounter - 1 }

/-- Control events arriving at a recorder actor. -/
inductive RecEvent where
  | initSig (openOK : Bool)
  | closeSig
  deriving Repr, DecidableEq

/-- Instrumented run of a syslog recorder: state plus the number of
successful inits, the number of close signals issued, and whether a close
was ever issued while the counter was zero. -/
structure SysRun where
  st : SyslogRec
  succInits : Nat
  closesIssued : Nat
  closedAtZero : Bool
  deriving Repr, DecidableEq

def sysStep (run : SysRun) : RecEvent → SysRun
  | .initSig ok =>
    let r := run.st.initialise ok
    { run with
      st := r.1,
      succInits := run.succInits + (if r.2 then 1 else 0) }
  | .closeSig =>
    { run with
      st := run.st.close,
      closesIssued := run.closesIssued + 1,
      closedAtZero := run.closedAtZero || decide (run.st.refCounter = 0) }

def sysRun0 : SysRun :=
  { st := { refCounter := 0, sinkOpen := false },
    succInits := 0, closesIssued := 0, closedAtZero := false }

def sysRun (events : List RecEvent) : SysRun :=
  events.foldl sysStep sysRun0

/-- Instrumented run of an io-direct recorder (every init succeeds). -/
structure IoRun where
  st : IoDirectRec
  succInits : Nat
  closesIssued : Nat
  closedAtZero : Bool
  deriving Repr, DecidableEq

def ioStep (run : IoRun) : RecEvent → IoRun
  | .initSig _ =>
    { run with st := run.st.initialise, succInits := run.succInits + 1 }
  | .closeSig =>
    { run with
      st := run.st.close,
      closesIssued := run.closesIssued + 1,
      closedAtZero := run.closedAtZero || decide (run.st.refCounter = 0) }

def ioRun0 : IoRun :=
  { st := { refCounter := 0, closerCalls := 0 },
    succInits := 0, closesIssued := 0, closedAtZero := false }

def ioRun (events : List RecEvent) : IoRun :=
  events.foldl ioStep ioRun0

/-! ## Bitwise helper lemmas -/

theorem and_lor_right (x y z : Nat) : (x ||| y) &&& z = (x &&& z) ||| (y &&& z) := by
  apply Nat.eq_of_testBit_eq
  intro i
  simp only [Nat.testBit_land, Nat.testBit_lor]
  cases x.testBit i <;> cases y.testBit i <;> cases z.testBit i <;> rfl

theorem and_lor_left (x a b : Nat) : (x &&& a) ||| (x &&& b) = x &&& (a ||| b) := by
  apply Nat.eq_of_testBit_eq
  intro i
  simp only [Nat.testBit_land, Nat.testBit_lor]
  cases x.testBit i <;> cases a.testBit i <;> cases b.testBit i <;> rfl

theorem testBit_false_of_lt16 {x : Nat} (hx : x < 65536) {i : Nat} (hi : 16 ≤ i) :
    x.testBit i = false :=
  Nat.testBit_eq_false_of_lt
    (lt_of_lt_of_le hx (le_trans (by norm_num) (Nat.pow_le_pow_right (by norm_num) hi)))

theorem land_ffff {x : Nat} (h : x < 65536) : x &&& 0xFFFF = x := by
  apply Nat.eq_of_testBit_eq
  intro i
  rw [Nat.testBit_land]
  rcases Nat.lt_or_ge i 16 with hi | hi
  · have ht : Nat.testBit 0xFFFF i = true := by interval_cases i <;> decide
    rw [ht, Bool.and_true]
  · simp [testBit_false_of_lt16 h hi]

/-- Go's `x &^ SeverityShadowMask` extracts the severity portion. -/
theorem andNot_shadow (x : Nat) : andNot x SeverityShadowMask = x &&& 0x30FF := by
  unfold andNot SeverityShadowMask
  rw [show ((0xFFFF : Nat) ^^^ 0xCF00) = 0x30FF by decide]

/-- Go's `x &^ (^SeverityShadowMask)` clears the severity portion. -/
theorem andNot_unshadow (x : Nat) :
    andNot x (0xFFFF ^^^ SeverityShadowMask) = x &&& 0xCF00 := by
  unfold andNot SeverityShadowMask
  rw [show ((0xFFFF : Nat) ^^^ (0xFFFF ^^^ 0xCF00)) = 0xCF00 by decide]

theorem exists_testBit_of_ne_zero {n : Nat} (h : n ≠ 0) : ∃ i, n.testBit i = true := by
  by_contra hc
  push_neg at hc
  exact h (Nat.zero_of_testBit_eq_false (fun i => by simpa using hc i))

/-- Any value with a nonzero severity portion matches one of the ten
severity constants. -/
theorem sev_exists_match {x : Nat} (h : x &&& 0x30FF ≠ 0) :
    ∃ c ∈ defaultSeverityOrder, x &&& 0x30FF &&& c ≠ 0 := by
  obtain ⟨i, hi⟩ := exists_testBit_of_ne_zero h
  have hxm : (0x30FF : Nat).testBit i = true := by
    rw [Nat.testBit_land] at hi
    simp only [Bool.and_eq_true] at hi
    exact hi.2
  have hlt : i < 14 := by
    by_contra hge
    rw [Nat.testBit_eq_false_of_lt
      (lt_of_lt_of_le (by norm_num)
        (Nat.pow_le_pow_right (by norm_num) (show 14 ≤ i by omega)))] at hxm
    exact absurd hxm (by simp)
  have hy2 : x &&& 0x30FF &&& 2 ^ i ≠ 0 := by
    rw [Nat.and_two_pow, hi]
    simp
  have hmem : (2 ^ i) ∈ defaultSeverityOrder := by
    interval_cases i <;> first
      | decide
      | exact absurd hxm (by decide)
  exact ⟨2 ^ i, hmem, hy2⟩

/-- The ten severity constants are pairwise bit-disjoint. -/
theorem sev_disjoint {b c : MsgFlagT} (hb : b ∈ defaultSeverityOrder)
    (hc : c ∈ defaultSeverityOrder) : b &&& c ≠ 0 ↔ b = c := by
  fin_cases hb <;> fin_cases hc <;> decide

theorem sev_sub_sevpart {b : MsgFlagT} (hb : b ∈ defaultSeverityOrder) :
    b &&& 0x30FF = b := by
  fin_cases hb <;> decide

theorem sev_shadow_zero {b : MsgFlagT} (hb : b ∈ defaultSeverityOrder) :
    b &&& 0xCF00 = 0 := by
  fin_cases hb <;> decide

/-- Severity portion of a protector result: exactly the chosen bit. -/
theorem protOut_sev (x : Nat) {b : MsgFlagT} (hb : b ∈ defaultSeverityOrder) :
    ((x &&& 0xCF00) ||| b) &&& 0x30FF = b := by
  rw [and_lor_right, Nat.land_assoc, sev_sub_sevpart hb,
    show ((0xCF00 : Nat) &&& 0x30FF) = 0 by decide, Nat.and_zero, Nat.zero_or]

/-- Attribute portion of a protector result: unchanged. -/
theorem protOut_attr (x : Nat) {b : MsgFlagT} (hb : b ∈ defaultSeverityOrder) :
    ((x &&& 0xCF00) ||| b) &&& 0xCF00 = x &&& 0xCF00 := by
  rw [and_lor_right, Nat.land_assoc, sev_shadow_zero hb,
    show ((0xCF00 : Nat) &&& 0xCF00) = 0xCF00 by decide, Nat.or_zero]

/-- A 16-bit value whose severity portion is the single bit `b` is left
unchanged by clearing the severity bits and setting `b` again. -/
theorem singlebit_stable {x : Nat} (hx : x < 65536) {b : MsgFlagT}
    (hsev : x &&& 0x30FF = b) : (x &&& 0xCF00) ||| b = x := by
  rw [← hsev, and_lor_left, show ((0xCF00 : Nat) ||| 0x30FF) = 0xFFFF by decide,
    land_ffff hx]

theorem lor_ne_zero_left (x y : Nat) (h : x ≠ 0) : x ||| y ≠ 0 := by
  intro hc
  obtain ⟨i, hi⟩ := exists_testBit_of_ne_zero h
  have := congrArg (fun n => Nat.testBit n i) hc
  simp only [Nat.testBit_lor, hi, Nat.zero_testBit, Bool.true_or] at this
  exact Bool.true_eq_false.mp this

/-! ## Concrete states used by witnesses and counterexamples -/

/-- A recorder entry as it looks right after registration and a successful
initialisation: default mask, default order. -/
def entryInited : RecEntry :=
  { init := true, mask := SeverityAll, order := defaultSeverityOrder }

/-- A logger with the single recorder `R` registered (as default) and
initialised. -/
def loggerR : Logger :=
  { initialised := true, recs := [("R", entryInited)], defaults := ["R"],
    falseInitList := [] }

/-- A logger with two initialised recorders `A` and `B`. -/
def loggerAB : Logger :=
  { initialised := true, recs := [("A", entryInited), ("B", entryInited)],
    defaults := [], falseInitList := [] }

def cfgDisabled : Config := { globalDisable := true, autoStartListening := true }

def msgPlain : LogMsg := { time := 0, flags := 0, content := "msg", Data := 0 }

/-! ## C5: recorder reference counting -/

/-- Invariant of an instrumented syslog-recorder run. -/
def sysInv (r : SysRun) : Prop :=
  0 ≤ r.st.refCounter ∧
  r.st.sinkOpen = decide (0 < r.st.refCounter) ∧
  (r.closedAtZero = false →
    r.st.refCounter = (r.succInits : Int) - (r.closesIssued : Int))

/-- Invariant of an instrumented io-direct-recorder run. -/
def ioInv (r : IoRun) : Prop :=
  0 ≤ r.st.refCounter ∧
  (r.closedAtZero = false →
    r.st.refCounter = (r.succInits : Int) - (r.closesIssued : Int))

theorem sysStep_inv {r : SysRun} (h : sysInv r) (e : RecEvent) :
    sysInv (sysStep r e) := by
  obtain ⟨h1, h2, h3⟩ := h
  cases e with
  | initSig ok =>
    by_cases h0 : r.st.refCounter = 0
    · cases ok with
      | true =>
        refine ⟨?_, ?_, fun hz => ?_⟩
        · simp [sysStep, SyslogRec.initialise, h0]
        · simp [sysStep, SyslogRec.initialise, h0]
        · have h4 := h3 (by simpa [sysStep] using hz)
          simp [sysStep, SyslogRec.initialise, h0] at h4 ⊢
          omega
      | false =>
        refine ⟨?_, ?_, fun hz => ?_⟩
        · simp [sysStep, SyslogRec.initialise, h0]
        · simpa [sysStep, SyslogRec.initialise, h0] using h2
        · have h4 := h3 (by simpa [sysStep] using hz)
          simp [sysStep, SyslogRec.initialise, h0] at h4 ⊢
          omega
    · refine ⟨?_, ?_, fun hz => ?_⟩
      · simp [sysStep, SyslogRec.initialise, h0]
        omega
      · simp [sysStep, SyslogRec.initialise, h0, h2]
        omega
      · have h4 := h3 (by simpa [sysStep] using hz)
        simp [sysStep, SyslogRec.initialise, h0] at h4 ⊢
        omega
  | closeSig =>
    by_cases h0 : r.st.refCounter = 0
    · refine ⟨?_, ?_, fun hz => ?_⟩
      · simp [sysStep, SyslogRec.close, h0]
      · simpa [sysStep, SyslogRec.close, h0] using h2
      · simp [sysStep, h0] at hz
    · by_cases h1' : r.st.refCounter = 1
      · refine ⟨?_, ?_, fun hz => ?_⟩
        · simp [sysStep, SyslogRec.close, h0, h1']
        · simp [sysStep, SyslogRec.close, h0, h1']
        · simp [sysStep] at hz
          have h4 := h3 hz.1
          simp [sysStep, SyslogRec.close, h0, h1'] at h4 ⊢
          omega
      · refine ⟨?_, ?_, fun hz => ?_⟩
        · simp [sysStep, SyslogRec.close, h0, h1']
          omega
        · simp [sysStep, SyslogRec.close, h0, h1', h2]
          omega
        · simp [sysStep] at hz
          have h4 := h3 hz.1
          simp [sysStep, SyslogRec.close, h0, h1'] at h4 ⊢
          omega

theorem ioStep_inv {r : IoRun} (h : ioInv r) (e : RecEvent) :
    ioInv (ioStep r e) := by
  obtain ⟨h1, h3⟩ := h
  cases e with
  | initSig ok =>
    refine ⟨?_, fun hz => ?_⟩
    · simp [ioStep, IoDirectRec.initialise]
      omega
    · have h4 := h3 (by simpa [ioStep] using hz)
      simp [ioStep, IoDirectRec.initialise] at h4 ⊢
      omega
  | closeSig =>
    by_cases h0 : r.st.refCounter = 0
    · refine ⟨?_, fun hz => ?_⟩
      · simp [ioStep, IoDirectRec.close, h0]
      · simp [ioStep, h0] at hz
    · by_cases h1' : r.st.refCounter = 1
      · refine ⟨?_, fun hz => ?_⟩
        · simp [ioStep, IoDirectRec.close, h0, h1']
        · simp [ioStep] at hz
          have h4 := h3 hz.1
          simp [ioStep, IoDirectRec.close, h0, h1'] at h4 ⊢
          omega
      · refine ⟨?_, fun hz => ?_⟩
        · simp [ioStep, IoDirectRec.close, h0, h1']
          omega
        · simp [ioStep] at hz
          have h4 := h3 hz.1
          simp [ioStep, IoDirectRec.close, h0, h1'] at h4 ⊢
          omega

theorem sysFoldl_inv (events : List RecEvent) :
    ∀ r : SysRun, sysInv r → sysInv (events.foldl sysStep r) := by
  induction events with
  | nil => exact fun r h => h
  | cons e rest ih => exact fun r h => ih (sysStep r e) (sysStep_inv h e)

theorem ioFoldl_inv (events : List RecEvent) :
    ∀ r : IoRun, ioInv r → ioInv (events.foldl ioStep r) := by
  induction events with
  | nil => exact fun r h => h
  | cons e rest ih => exact fun r h => ih (ioStep r e) (ioStep_inv h e)

/-- C5 (counterexample): issuing a `Close` on a fresh recorder (a no-op)
and then a successful `Init` leaves `ref_counter = 1`, while the number of
successful inits minus the number of closes issued is `0`; the claimed
equation `ref_counter = inits − closes` fails on this trace. -/
theorem C5_counterexample :
    (sysRun [RecEvent.closeSig, RecEvent.initSig true]).st.refCounter = 1 ∧
    (sysRun [RecEvent.closeSig, RecEvent.initSig true]).succInits = 1 ∧
    (sysRun [RecEvent.closeSig, RecEvent.initSig true]).closesIssued = 1 ∧
    (sysRun [RecEvent.closeSig, RecEvent.initSig true]).st.refCounter ≠
      ((sysRun [RecEvent.closeSig, RecEvent.initSig true]).succInits : Int) -
      ((sysRun [RecEvent.closeSig, RecEvent.initSig true]).closesIssued : Int) := by
  refine ⟨rfl, rfl, rfl, ?_⟩
  decide

/-- C5 (amended): for every event trace processed by a recorder actor,
`ref_counter` stays non-negative and the physical sink is open iff
`ref_counter > 0`; `ref_counter` equals the number of successful Inits
minus the number of Closes issued provided no Close was ever issued while
the counter was zero (a Close at zero is a no-op and breaks that count).
Additionally, a Close at counter zero leaves the recorder state unchanged,
and an Init on an already-open recorder only increments the counter
(no physical open is attempted). -/
theorem C5_amended :
    (∀ events : List RecEvent, sysInv (sysRun events)) ∧
    (∀ events : List RecEvent, ioInv (ioRun events)) ∧
    (∀ R : SyslogRec, R.refCounter = 0 → R.close = R) ∧
    (∀ R : IoDirectRec, R.refCounter = 0 → R.close = R) ∧
    (∀ (R : SyslogRec) (ok : Bool), R.refCounter ≠ 0 →
      (R.initialise ok).1 = { R with refCounter := R.refCounter + 1 } ∧
      (R.initialise ok).2 = true) := by
  refine ⟨?_, ?_, ?_, ?_, ?_⟩
  · intro events
    exact sysFoldl_inv events sysRun0 (by constructor <;> simp [sysRun0])
  · intro events
    exact ioFoldl_inv events ioRun0 (by constructor <;> simp [ioRun0])
  · intro R h
    simp [SyslogRec.close, h]
  · intro R h
    simp [IoDirectRec.close, h]
  · intro R ok h
    simp [SyslogRec.initialise, h]

/-- Witness for `C5_amended` at a concrete trace and state. -/
theorem C5_amended_witness :
    ((sysRun [RecEvent.initSig true, RecEvent.closeSig]).st.refCounter =
      ((sysRun [RecEvent.initSig true, RecEvent.closeSig]).succInits : Int) -
      ((sysRun [RecEvent.initSig true, RecEvent.closeSig]).closesIssued : Int)) ∧
    SyslogRec.close { refCounter := 0, sinkOpen := false } =
      { refCounter := 0, sinkOpen := false } ∧
    (SyslogRec.initialise { refCounter := 2, sinkOpen := true } true).1 =
      { refCounter := 3, sinkOpen := true } := by
  refine ⟨(C5_amended.1 _).2.2 (by decide), C5_amended.2.2.1 _ rfl, ?_⟩
  have h := (C5_amended.2.2.2.2 { refCounter := 2, sinkOpen := true } true (by decide)).1
  simpa using h

/-! ## C6: initialised flag after registry changes -/

/-- C6 (counterexample): with two initialised recorders `A`, `B` and
`initialised = true`, unregistering `A` succeeds but leaves `initialised`
true (the source resets the flag only when `len(recorders) == 1`). -/
theorem C6_counterexample :
    (unregisterRecorder cfgDefault loggerAB "A").2.1 = none ∧
    (unregisterRecorder cfgDefault loggerAB "A").1.recs.length = 1 ∧
    (unregisterRecorder cfgDefault loggerAB "A").1.initialised = true := by
  refine ⟨rfl, rfl, rfl⟩

/-- C6 (amended): a successful `RegisterRecorder` always clears
`initialised`; a successful `UnregisterRecorder` clears it only when the
registry held exactly one recorder, and otherwise leaves it unchanged. -/
theorem C6_amended :
    (∀ (cfg : Config) (L : Logger) (id : RecorderID) (v d : Bool)
        (L2 : Logger),
      cfg.globalDisable = false →
      (registerRecorder cfg L id v d).1 = L2 →
      (registerRecorder cfg L id v d).2 = none →
      L2.initialised = false) ∧
    (∀ (cfg : Config) (L : Logger) (id : RecorderID) (L2 : Logger),
      cfg.globalDisable = false →
      (unregisterRecorder cfg L id).1 = L2 →
      (unregisterRecorder cfg L id).2.1 = none →
      L2.initialised = (if L.recs.length = 1 then false else L.initialised)) := by
  constructor
  · intro cfg L id v d L2 hcfg hL2 hret
    subst hL2
    unfold registerRecorder at hret ⊢
    rw [hcfg] at hret ⊢
    split_ifs at hret ⊢ <;> simp_all
  · intro cfg L id L2 hcfg hL2 hret
    subst hL2
    unfold unregisterRecorder at hret ⊢
    rw [hcfg] at hret ⊢
    simp only [Bool.false_eq_true, if_false] at hret ⊢
    split_ifs at hret ⊢ <;> cases hfind : findRec L.recs id <;> simp_all

/-- Witness for `C6_amended` at concrete inputs. -/
theorem C6_amended_witness :
    (registerRecorder cfgDefault newLogger "R" true true).1.initialised = false ∧
    (unregisterRecorder cfgDefault loggerAB "A").1.initialised =
      (if loggerAB.recs.length = 1 then false else loggerAB.initialised) := by
  constructor
  · exact C6_amended.1 cfgDefault newLogger "R" true true _ rfl rfl rfl
  · exact C6_amended.2 cfgDefault loggerAB "A" _ rfl rfl rfl

/-! ## C7: the global-disable flag -/

/-- C7 (counterexample): with the global-disable flag set, `Close` on an
initialised logger still clears `initialised` and still sends a close
signal to every recorder — `Close` has no `CfgGlobalDisable` check. -/
theorem C7_counterexample :
    (closeLogger cfgDisabled loggerR).1.initialised = false ∧
    loggerR.initialised = true ∧
    (closeLogger cfgDisabled loggerR).2 = [("R", Sig.sigClose)] := by
  refine ⟨rfl, rfl, rfl⟩

/-- C7 (amended): with the global-disable flag set, `RegisterRecorder`,
`UnregisterRecorder`, `Initialise`, `DefaultsSet`, `DefaultsAdd`,
`DefaultsRemove`, `SetSeverityMask`, `ChangeSeverityOrder`, `Write` and
`WriteMsg` return success immediately, change nothing and send nothing;
`Close`, however, does not consult the flag at all (its behaviour is
identical for every configuration). -/
theorem C7_amended :
    (∀ (cfg : Config) (L : Logger) (id : RecorderID) (v d : Bool),
      cfg.globalDisable = true → registerRecorder cfg L id v d = (L, none)) ∧
    (∀ (cfg : Config) (L : Logger) (id : RecorderID),
      cfg.globalDisable = true → unregisterRecorder cfg L id = (L, none, [])) ∧
    (∀ (cfg : Config) (L : Logger) (attempt : RecorderID → Option RErr),
      cfg.globalDisable = true → initialise cfg L attempt = (L, none)) ∧
    (∀ (cfg : Config) (L : Logger) (rs : List RecorderID),
      cfg.globalDisable = true → defaultsSet cfg L rs = (L, none, false)) ∧
    (∀ (cfg : Config) (L : Logger) (rs : List RecorderID),
      cfg.globalDisable = true → defaultsAdd cfg L rs = (L, none, false)) ∧
    (∀ (cfg : Config) (L : Logger) (rs : List RecorderID),
      cfg.globalDisable = true → defaultsRemove cfg L rs = (L, none, false)) ∧
    (∀ (cfg : Config) (L : Logger) (id : RecorderID) (fl : MsgFlagT),
      cfg.globalDisable = true → setSeverityMask cfg L id fl = (L, none)) ∧
    (∀ (cfg : Config) (L : Logger) (id : RecorderID) (src : MsgFlagT)
        (dir : SsDirection) (trg : MsgFlagT),
      cfg.globalDisable = true →
      changeSeverityOrder cfg L id src dir trg = (L, none, false)) ∧
    (∀ (cfg : Config) (L : Logger) (fl : MsgFlagT) (text : String)
        (now : Nat) (st : String),
      cfg.globalDisable = true → write cfg L fl text now st = wmEarly none none) ∧
    (∀ (cfg : Config) (L : Logger) (recs : List RecorderID)
        (msgO : Option LogMsg) (st : String),
      cfg.globalDisable = true →
      writeMsg cfg L recs msgO st = wmEarly msgO none) ∧
    (∀ (cfg : Config) (L : Logger), closeLogger cfg L = closeLogger cfgDefault L) := by
  refine ⟨?_, ?_, ?_, ?_, ?_, ?_, ?_, ?_, ?_, ?_, ?_⟩
  · intro cfg L id v d h
    simp [registerRecorder, h]
  · intro cfg L id h
    simp [unregisterRecorder, h]
  · intro cfg L attempt h
    simp [initialise, h]
  · intro cfg L rs h
    simp [defaultsSet, h]
  · intro cfg L rs h
    simp [defaultsAdd, h]
  · intro cfg L rs h
    simp [defaultsRemove, h]
  · intro cfg L id fl h
    simp [setSeverityMask, h]
  · intro cfg L id src dir trg h
    simp [changeSeverityOrder, h]
  · intro cfg L fl text now st h
    simp [write, h]
  · intro cfg L recs msgO st h
    simp [writeMsg, h]
  · intro cfg L
    rfl

/-- Witness for `C7_amended` at concrete inputs. -/
theorem C7_amended_witness :
    registerRecorder cfgDisabled loggerR "S" true true = (loggerR, none) ∧
    defaultsSet cfgDisabled loggerR ["R"] = (loggerR, none, false) ∧
    changeSeverityOrder cfgDisabled loggerR "R" Error SsDirection.before Info =
      (loggerR, none, false) ∧
    writeMsg cfgDisabled loggerR ["R"] (some msgPlain) "" =
      wmEarly (some msgPlain) none := by
  exact ⟨C7_amended.1 cfgDisabled loggerR "S" true true rfl,
         C7_amended.2.2.2.1 cfgDisabled loggerR ["R"] rfl,
         C7_amended.2.2.2.2.2.2.2.1 cfgDisabled loggerR "R" Error
           SsDirection.before Info rfl,
         C7_amended.2.2.2.2.2.2.2.2.2.1 cfgDisabled loggerR ["R"]
           (some msgPlain) "" rfl⟩

/-! ## Lemmas about the registry association list -/

theorem findRec_updateRec_self (recs : List (RecorderID × RecEntry))
    (id : RecorderID) (e : RecEntry) (h : (findRec recs id).isSome) :
    findRec (updateRec recs id e) id = some e := by
  induction recs with
  | nil => simp [findRec] at h
  | cons p rest ih =>
    by_cases hk : p.1 = id
    · simp [findRec, updateRec, hk]
    · simp only [findRec, updateRec, hk, if_neg hk, if_false] at h ⊢
      exact ih h

theorem findRec_updateRec_ne (recs : List (RecorderID × RecEntry))
    (id x : RecorderID) (e : RecEntry) (hx : x ≠ id) :
    findRec (updateRec recs id e) x = findRec recs x := by
  induction recs with
  | nil => simp [findRec, updateRec]
  | cons p rest ih =>
    by_cases hk : p.1 = id
    · simp [findRec, updateRec, hk, Ne.symm hx]
    · simp only [findRec, updateRec, hk, if_false]
      by_cases hpx : p.1 = x
      · simp [hpx]
      · simp [hpx, ih]

/-! ## Lemmas about the dispatch loop -/

/-- Every message sent by the per-recipient loop either was in the
accumulator already or is addressed to a registered recorder whose
severity mask admits the message's severity bits. -/
theorem deliverLoop_sends_mem (recsMap : List (RecorderID × RecEntry)) :
    ∀ (targets : List RecorderID) (msg : LogMsg)
      (sends : List (RecorderID × LogMsg)) (br : BatchResult)
      (p : RecorderID × LogMsg),
    p ∈ (deliverLoop recsMap targets msg sends br).2.1 →
    p ∈ sends ∨ ∃ e, findRec recsMap p.1 = some e ∧
      andNot p.2.flags SeverityShadowMask &&& e.mask > 0 := by
  intro targets
  induction targets with
  | nil =>
    intro msg sends br p hp
    exact Or.inl (by simpa [deliverLoop] using hp)
  | cons recID rest ih =>
    intro msg sends br p hp
    simp only [deliverLoop] at hp
    cases hprot : severityProtector ((findRec recsMap recID).map
        (fun e => e.order)) msg.flags with
    | errVal =>
      simp only [hprot] at hp
      exact ih _ _ _ p hp
    | fatal =>
      simp only [hprot] at hp
      exact Or.inl (by simpa using hp)
    | ok f =>
      simp only [hprot] at hp
      cases hfind : findRec recsMap recID with
      | none =>
        simp only [hfind] at hp
        exact Or.inl (by simpa using hp)
      | some e =>
        simp only [hfind] at hp
        by_cases hcond :
            andNot ({ msg with flags := f } : LogMsg).flags SeverityShadowMask
              &&& e.mask > 0
        · rw [if_pos hcond] at hp
          rcases ih _ _ _ p hp with h | h
          · rcases List.mem_append.mp h with h1 | h1
            · exact Or.inl h1
            · have h2 : p = (recID, ({ msg with flags := f } : LogMsg)) := by
                simpa using h1
              refine Or.inr ⟨e, ?_, ?_⟩
              · rw [h2]
                exact hfind
              · rw [h2]
                exact hcond
          · exact Or.inr h
        · rw [if_neg hcond] at hp
          exact ih _ _ _ p hp

/-- Every message sent by `WriteMsg` goes to a registered recorder whose
severity mask admits the delivered severity bits. -/
theorem writeMsg_sends_mem (cfg : Config) (L : Logger)
    (recorders : List RecorderID) (msgO : Option LogMsg) (st : String)
    (p : RecorderID × LogMsg)
    (hp : p ∈ (writeMsg cfg L recorders msgO st).sends) :
    ∃ e, findRec L.recs p.1 = some e ∧
      andNot p.2.flags SeverityShadowMask &&& e.mask > 0 := by
  cases msgO with
  | none =>
    simp only [writeMsg] at hp
    split_ifs at hp <;> simp [wmEarly] at hp
  | some msg0 =>
    simp only [writeMsg] at hp
    split_ifs at hp with hd h1 h2 h3 h4
    · simp [wmEarly] at hp
    · simp [wmEarly] at hp
    · simp [wmEarly] at hp
    · cases hv : validateRecipients L.recs recorders
          (BatchResult.setMsg {} "an error occurred in some of the given recorders") with
      | none =>
        simp only [hv] at hp
        simp at hp
      | some tb =>
        simp only [hv] at hp
        rcases deliverLoop_sends_mem L.recs tb.1
            (normalizeSeverity (applyStackTrace msg0 st)) [] tb.2 p
            (by simpa using hp) with h | h
        · simp at h
        · exact h
    · rcases deliverLoop_sends_mem L.recs L.defaults
          (normalizeSeverity (applyStackTrace msg0 st)) []
          (BatchResult.setMsg {} "an error occurred in some of the given recorders") p
          (by simpa using hp) with h | h
      · simp at h
      · exact h
    · simp [wmEarly] at hp

/-! ## C8: SetSeverityMask stores the masked value; mask zero mutes -/

/-- The logger state after a successful `SetSeverityMask(id, flags)` when
`id` carried entry `e`. -/
def maskUpdated (L : Logger) (id : RecorderID) (e : RecEntry)
    (flags : MsgFlagT) : Logger :=
  let e2 : RecEntry := { e with mask := andNot flags SeverityShadowMask }
  { L with recs := updateRec L.recs id e2 }

/-- C8 (confirmed): for a registered recorder id (non-empty, as every
registered id is), `SetSeverityMask(id, flags)` succeeds and stores
`flags AND NOT SeverityShadowMask`; and after a successful
`SetSeverityMask(id, 0)`, no `WriteMsg` call sends anything on that
recorder's message channel. -/
theorem C8_set_mask_and_mute :
    (∀ (cfg : Config) (L : Logger) (id : RecorderID) (e : RecEntry)
        (flags : MsgFlagT),
      cfg.globalDisable = false → id ≠ "" → findRec L.recs id = some e →
      setSeverityMask cfg L id flags = (maskUpdated L id e flags, none)) ∧
    (∀ (cfg : Config) (L L2 : Logger) (id : RecorderID) (e : RecEntry)
        (recorders : List RecorderID) (msgO : Option LogMsg) (st : String)
        (p : RecorderID × LogMsg),
      cfg.globalDisable = false → id ≠ "" → findRec L.recs id = some e →
      setSeverityMask cfg L id 0 = (L2, none) →
      p ∈ (writeMsg cfg L2 recorders msgO st).sends → p.1 ≠ id) := by
  have hset : ∀ (cfg : Config) (L : Logger) (id : RecorderID) (e : RecEntry)
      (flags : MsgFlagT),
      cfg.globalDisable = false → id ≠ "" → findRec L.recs id = some e →
      setSeverityMask cfg L id flags = (maskUpdated L id e flags, none) := by
    intro cfg L id e flags hcfg hid hfind
    unfold setSeverityMask maskUpdated
    rw [hcfg]
    have hne : L.recs.length ≠ 0 := by
      intro hlen
      rw [List.length_eq_zero.mp hlen] at hfind
      simp [findRec] at hfind
    simp [hid, hne, hfind]
  refine ⟨hset, ?_⟩
  intro cfg L L2 id e recorders msgO st p hcfg hid hfind hset0 hp hpid
  have h2 := hset cfg L id e 0 hcfg hid hfind
  rw [hset0] at h2
  have hL2 : L2 = maskUpdated L id e 0 := congrArg Prod.fst h2
  have hmask0 : andNot 0 SeverityShadowMask = 0 := Nat.zero_and _
  obtain ⟨e2, hfind2, hadm⟩ := writeMsg_sends_mem cfg L2 recorders msgO st p hp
  rw [hpid] at hfind2
  have hfind3 : findRec L2.recs id = some { e with mask := 0 } := by
    rw [hL2]
    unfold maskUpdated
    simp only
    rw [← hmask0]
    exact findRec_updateRec_self L.recs id _ (by simp [hfind])
  rw [hfind2] at hfind3
  have he2 : e2 = { e with mask := 0 } := by
    injection hfind3
  rw [he2] at hadm
  simp [Nat.and_zero] at hadm

/-- Witness for `C8_set_mask_and_mute` at concrete inputs. -/
theorem C8_witness :
    setSeverityMask cfgDefault loggerR "R" 0 =
      (maskUpdated loggerR "R" entryInited 0, none) ∧
    (∀ p : RecorderID × LogMsg,
      p ∈ (writeMsg cfgDefault (setSeverityMask cfgDefault loggerR "R" 0).1
            ["R"] (some msgPlain) "").sends → p.1 ≠ "R") := by
  constructor
  · exact C8_set_mask_and_mute.1 cfgDefault loggerR "R" entryInited 0 rfl
      (by decide) rfl
  · intro p hp
    exact C8_set_mask_and_mute.2 cfgDefault loggerR
      (setSeverityMask cfgDefault loggerR "R" 0).1 "R" entryInited
      ["R"] (some msgPlain) "" p rfl (by decide) rfl rfl hp

/-! ## C2: the swap-removal panic in WriteMsg recipient validation -/

theorem getD_set_ne (l : List RecorderID) (i j : Nat) (a d : RecorderID)
    (h : i ≠ j) : (l.set i a).getD j d = l.getD j d := by
  simp [List.getD, List.getElem?_set_ne h]

theorem getD_set_eq (l : List RecorderID) (i : Nat) (a d : RecorderID)
    (h : i < l.length) : (l.set i a).getD i d = a := by
  simp [List.getD, List.getElem?_set_self, h]

/-- Once a removal has happened, the last array cell holds the empty id
and the slice is at least one shorter than the array; from such a state
the remaining range iterations always end in an index-out-of-range
panic (at the final iteration at the latest). -/
theorem vLoop_poisoned (reg : List (RecorderID × RecEntry))
    (hreg : findRec reg "" = none) :
    ∀ (r : Nat) (arr : List RecorderID) (curLen : Nat) (br : BatchResult)
      (i : Nat),
    1 ≤ r → i + r = arr.length → curLen + 1 ≤ arr.length →
    arr.getD (arr.length - 1) "" = "" →
    vLoop reg arr curLen br i r = none := by
  intro r
  induction r with
  | zero => intro arr curLen br i h1 _ _ _; omega
  | succ r' ih =>
    intro arr curLen br i _ hlen hcur hlast
    by_cases hr0 : r' = 0
    · subst hr0
      have hi : i = arr.length - 1 := by omega
      rw [vLoop]
      rw [hi, hlast, hreg]
      simp only [Option.isSome_none, Bool.false_eq_true, if_false]
      rw [if_neg (by omega)]
    · rw [vLoop]
      by_cases hk : (findRec reg (arr.getD i "")).isSome
      · rw [if_pos hk]
        exact ih arr curLen br (i + 1) (by omega) (by omega) hcur hlast
      · rw [if_neg hk]
        by_cases hcond : i < curLen ∧ 0 < curLen
        · rw [if_pos hcond]
          refine ih _ (curLen - 1) _ (i + 1) (by omega) (by simp; omega)
            (by simp; omega) ?_
          have hi1 : i ≠ arr.length - 1 := by omega
          have hc1 : curLen - 1 ≠ arr.length - 1 := by omega
          rw [List.length_set, List.length_set]
          rw [getD_set_ne _ _ _ _ _ hc1, getD_set_ne _ _ _ _ _ hi1]
          exact hlast
        · rw [if_neg hcond]

/-- From a clean slice (no removal yet), an unknown id at a position other
than the last makes the validation loop panic. -/
theorem vLoop_clean_panics (reg : List (RecorderID × RecEntry))
    (hreg : findRec reg "" = none) :
    ∀ (r i j : Nat) (arr : List RecorderID) (br : BatchResult),
    i + r = arr.length → i ≤ j → j + 1 < arr.length →
    findRec reg (arr.getD j "") = none →
    vLoop reg arr arr.length br i r = none := by
  intro r
  induction r with
  | zero => intro i j arr br hlen hij hj _; omega
  | succ r' ih =>
    intro i j arr br hlen hij hj hunk
    rw [vLoop]
    by_cases hk : (findRec reg (arr.getD i "")).isSome
    · rw [if_pos hk]
      have hij2 : i ≠ j := by
        intro he
        rw [he, hunk] at hk
        simp at hk
      exact ih (i + 1) j arr br (by omega) (by omega) hj hunk
    · rw [if_neg hk]
      rw [if_pos (by omega)]
      apply vLoop_poisoned reg hreg r' _ _ _ (i + 1) (by omega)
        (by simp; omega) (by simp; omega)
      rw [List.length_set, List.length_set]
      exact getD_set_eq _ _ _ _ (by simp; omega)

/-- C2 (confirmed): a `WriteMsg` call whose explicit recipients contain an
id unknown to the registry at any position other than the last panics: the
validation loop keeps iterating over the captured range length after
shrinking the slice, and its swap-removal indexes the shrunken slice out
of range (the final iteration reads the empty id planted in the shared
array and is itself out of range, if no earlier iteration already was). -/
theorem C2_swap_removal_panics (cfg : Config) (L : Logger)
    (recsArg : List RecorderID) (msg : LogMsg) (st : String) (j : Nat)
    (hcfg : cfg.globalDisable = false)
    (hinit : L.initialised = true)
    (hne : L.recs ≠ [])
    (hreg : findRec L.recs "" = none)
    (hj : j + 1 < recsArg.length)
    (hunk : findRec L.recs (recsArg.getD j "") = none) :
    (writeMsg cfg L recsArg (some msg) st).panicked = true := by
  have hlen0 : ¬(L.recs.length = 0) := by
    intro h0
    exact hne (List.length_eq_zero.mp h0)
  have hargs : ¬(L.defaults = [] ∧ recsArg = []) := by
    intro h0
    rw [h0.2] at hj
    simp at hj
  have hpos : recsArg.length > 0 := by omega
  have hval : validateRecipients L.recs recsArg
      (BatchResult.setMsg {} "an error occurred in some of the given recorders") = none := by
    unfold validateRecipients
    rw [vLoop_clean_panics L.recs hreg recsArg.length 0 j recsArg _
      (by omega) (by omega) hj hunk]
  simp [writeMsg, hcfg, hinit, hlen0, hargs, hpos, hval]

/-- Witness for `C2_swap_removal_panics`: with only `R` registered,
`WriteMsg(["ghost", "R"], msg)` panics. -/
theorem C2_witness :
    (writeMsg cfgDefault loggerR ["ghost", "R"] (some msgPlain) "").panicked = true :=
  C2_swap_removal_panics cfgDefault loggerR ["ghost", "R"] msgPlain "" 0
    rfl rfl (by decide) rfl (by decide) rfl

/-! ## C4: Initialise -/

theorem upsertErr_append (l : List (RecorderID × RErr)) (rec : RecorderID)
    (err : RErr) (h : rec ∉ l.map Prod.fst) :
    upsertErr l rec err = l ++ [(rec, err)] := by
  induction l with
  | nil => rfl
  | cons p rest ih =>
    simp only [List.map_cons, List.mem_cons] at h
    push_neg at h
    simp only [upsertErr, if_neg (Ne.symm h.1)]
    rw [ih h.2]
    rfl

theorem removeErrKey_of_not_mem (l : List (RecorderID × RErr))
    (rec : RecorderID) (h : rec ∉ l.map Prod.fst) :
    removeErrKey l rec = l := by
  induction l with
  | nil => rfl
  | cons p rest ih =>
    simp only [List.map_cons, List.mem_cons] at h
    push_neg at h
    simp only [removeErrKey, if_neg (Ne.symm h.1)]
    rw [ih h.2]

theorem findIdx?_eq_none (l : List RecorderID) (rec : RecorderID)
    (h : rec ∉ l) : l.findIdx? (fun r => r = rec) = none := by
  rw [List.findIdx?_eq_none_iff]
  intro x hx
  simp only [decide_eq_false_iff_not]
  intro hxx
  exact h (hxx ▸ hx)

theorem recEntry_set_init_self (e : RecEntry) :
    ({ e with init := e.init } : RecEntry) = e := by
  cases e
  rfl

theorem fail_clean (br : BatchResult) (rec : RecorderID) (err : RErr)
    (he : rec ∉ br.errors.map Prod.fst) (hs : rec ∉ br.successful) :
    br.fail rec err =
      { errors := br.errors ++ [(rec, err)], successful := br.successful,
        errMessage := br.errMessage } := by
  unfold BatchResult.fail
  rw [upsertErr_append _ _ _ he, findIdx?_eq_none _ _ hs]

theorem okRec_clean (br : BatchResult) (rec : RecorderID)
    (he : rec ∉ br.errors.map Prod.fst) (hs : rec ∉ br.successful) :
    br.okRec rec =
      { errors := br.errors, successful := br.successful ++ [rec],
        errMessage := br.errMessage } := by
  unfold BatchResult.okRec
  rw [if_neg (by simpa using hs), removeErrKey_of_not_mem _ _ he]

/-- What the init loop does to one registry entry: `none` on success or
skip, the recorded error otherwise. -/
def entryFail (attempt : RecorderID → Option RErr) (falseInitL : List RecorderID)
    (id : RecorderID) (e : RecEntry) : Option RErr :=
  if e.init then none
  else
    match attempt id with
    | some err => some err
    | none => if falseInitL.contains id then some RErr.falseInit else none

def initFails (attempt : RecorderID → Option RErr) (falseInitL : List RecorderID)
    (recs : List (RecorderID × RecEntry)) : List (RecorderID × RErr) :=
  recs.filterMap (fun p => (entryFail attempt falseInitL p.1 p.2).map
    (fun err => (p.1, err)))

/-- The entry as it stands after the init loop. -/
def entryAfter (attempt : RecorderID → Option RErr) (falseInitL : List RecorderID)
    (id : RecorderID) (e : RecEntry) : RecEntry :=
  { e with init := e.init || ((attempt id).isNone && !(falseInitL.contains id)) }

theorem entryFail_none_iff (attempt : RecorderID → Option RErr)
    (falseInitL : List RecorderID) (id : RecorderID) (e : RecEntry) :
    entryFail attempt falseInitL id e = none ↔
      (entryAfter attempt falseInitL id e).init = true := by
  unfold entryFail entryAfter
  cases he : e.init <;> cases ha : attempt id <;>
    cases hc : falseInitL.contains id <;> simp [he, ha, hc]

theorem entryAfter_of_init (attempt : RecorderID → Option RErr)
    (falseInitL : List RecorderID) (id : RecorderID) (e : RecEntry)
    (he : e.init = true) : entryAfter attempt falseInitL id e = e := by
  unfold entryAfter
  rw [he, Bool.true_or, ← he]

theorem entryAfter_of_fail (attempt : RecorderID → Option RErr)
    (falseInitL : List RecorderID) (id : RecorderID) (e : RecEntry)
    (hfail : entryFail attempt falseInitL id e ≠ none) :
    entryAfter attempt falseInitL id e = e := by
  unfold entryAfter
  cases he : e.init with
  | true => rw [Bool.true_or, ← he]
  | false =>
    cases ha : attempt id with
    | some err =>
      simp only [Option.isNone_some, Bool.false_and, Bool.or_false]
      rw [← he]
    | none =>
      cases hc : falseInitL.contains id with
      | true =>
        simp only [Option.isNone_none, Bool.not_true, Bool.and_false, Bool.or_false]
        rw [← he]
      | false =>
        exfalso
        apply hfail
        unfold entryFail
        rw [he, ha, hc]
        simp

theorem initLoop_spec (attempt : RecorderID → Option RErr)
    (falseInitL : List RecorderID) :
    ∀ (recs : List (RecorderID × RecEntry)) (br : BatchResult),
    (recs.map Prod.fst).Nodup →
    (∀ k ∈ recs.map Prod.fst, k ∉ br.errors.map Prod.fst ∧ k ∉ br.successful) →
    (initLoop attempt falseInitL recs br).1 =
      recs.map (fun p => (p.1, entryAfter attempt falseInitL p.1 p.2)) ∧
    (initLoop attempt falseInitL recs br).2.errors =
      br.errors ++ initFails attempt falseInitL recs := by
  intro recs
  induction recs with
  | nil => intro br _ _; simp [initLoop, initFails]
  | cons p rest ih =>
    intro br hnd hdisj
    obtain ⟨id, e⟩ := p
    have hnd2 : (rest.map Prod.fst).Nodup := by
      simpa using hnd.of_cons
    have hid_rest : id ∉ rest.map Prod.fst := by
      have h := hnd
      simp only [List.map_cons, List.nodup_cons] at h
      exact h.1
    have hdisj_id := hdisj id (by simp)
    have hkid : ∀ k ∈ rest.map Prod.fst, k ≠ id := by
      intro k hk hke
      rw [hke] at hk
      exact hid_rest hk
    cases he : e.init with
    | true =>
      have hrec := ih br hnd2 (fun k hk => hdisj k (by simp [hk]))
      have hef : entryFail attempt falseInitL id e = none := by
        unfold entryFail
        rw [he]
        simp
      simp only [initLoop, he, if_true]
      refine ⟨?_, ?_⟩
      · simp only [List.map_cons, hrec.1,
          entryAfter_of_init attempt falseInitL id e he]
      · rw [hrec.2]
        simp [initFails, hef]
    | false =>
      cases ha : attempt id with
      | some err =>
        have hbr2 := fail_clean br id err hdisj_id.1 hdisj_id.2
        have hdisj2 : ∀ k ∈ rest.map Prod.fst,
            k ∉ (br.fail id err).errors.map Prod.fst ∧
            k ∉ (br.fail id err).successful := by
          intro k hk
          have hd := hdisj k (by simp [hk])
          rw [hbr2]
          exact ⟨by simp [hd.1, hkid k hk], hd.2⟩
        have hrec := ih (br.fail id err) hnd2 hdisj2
        have hef : entryFail attempt falseInitL id e = some err := by
          unfold entryFail
          rw [he, ha]
          simp
        simp only [initLoop, he, Bool.false_eq_true, if_false, ha]
        refine ⟨?_, ?_⟩
        · simp only [List.map_cons, hrec.1,
            entryAfter_of_fail attempt falseInitL id e (by simp [hef])]
        · rw [hrec.2, hbr2]
          simp [initFails, hef]
      | none =>
        cases hc : falseInitL.contains id with
        | true =>
          have hbr2 := fail_clean br id RErr.falseInit hdisj_id.1 hdisj_id.2
          have hdisj2 : ∀ k ∈ rest.map Prod.fst,
              k ∉ (br.fail id RErr.falseInit).errors.map Prod.fst ∧
              k ∉ (br.fail id RErr.falseInit).successful := by
            intro k hk
            have hd := hdisj k (by simp [hk])
            rw [hbr2]
            exact ⟨by simp [hd.1, hkid k hk], hd.2⟩
          have hrec := ih (br.fail id RErr.falseInit) hnd2 hdisj2
          have hef : entryFail attempt falseInitL id e = some RErr.falseInit := by
            unfold entryFail
            rw [he, ha, hc]
            simp
          simp only [initLoop, he, Bool.false_eq_true, if_false, ha, hc, if_true]
          refine ⟨?_, ?_⟩
          · simp only [List.map_cons, hrec.1,
              entryAfter_of_fail attempt falseInitL id e (by simp [hef])]
          · rw [hrec.2, hbr2]
            simp [initFails, hef]
        | false =>
          have hbr2 := okRec_clean br id hdisj_id.1 hdisj_id.2
          have hdisj2 : ∀ k ∈ rest.map Prod.fst,
              k ∉ (br.okRec id).errors.map Prod.fst ∧
              k ∉ (br.okRec id).successful := by
            intro k hk
            have hd := hdisj k (by simp [hk])
            rw [hbr2]
            exact ⟨hd.1, by simp [hd.2, hkid k hk]⟩
          have hrec := ih (br.okRec id) hnd2 hdisj2
          have hef : entryFail attempt falseInitL id e = none := by
            unfold entryFail
            rw [he, ha, hc]
            simp
          have hea : entryAfter attempt falseInitL id e = { e with init := true } := by
            unfold entryAfter
            rw [he, ha, hc]
            simp
          simp only [initLoop, he, Bool.false_eq_true, if_false, ha, hc, if_false]
          refine ⟨?_, ?_⟩
          · simp only [List.map_cons, hrec.1, hea]
          · rw [hrec.2, hbr2]
            simp [initFails, hef]

/-- C4 (counterexample): on an empty registry, every registered recorder
is (vacuously) initialised, yet `Initialise` returns `ErrNoRecorders`
rather than nil and leaves `initialised` false — the claimed
"exactly when" fails at the empty registry. -/
theorem C4_counterexample :
    (initialise cfgDefault newLogger (fun _ => none)).2 = some Err.noRecorders ∧
    (initialise cfgDefault newLogger (fun _ => none)).1.initialised = false ∧
    (initialise cfgDefault newLogger (fun _ => none)).1.recs = [] := by
  exact ⟨rfl, rfl, rfl⟩

/-- The initial batch result built by `Initialise`. -/
def initBr0 : BatchResult :=
  BatchResult.setMsg {} "some of the given recorders are not initialised"

/-- The init loop as run by `Initialise` on logger `L`. -/
def runInit (attempt : RecorderID → Option RErr) (L : Logger) :
    List (RecorderID × RecEntry) × BatchResult :=
  initLoop attempt L.falseInitList L.recs initBr0

/-- C4 (amended): on a non-empty registry (with distinct ids, as
registration guarantees) and a logger not yet marked initialised,
`Initialise` either returns nil with `initialised = true`, or returns a
`BatchResult` with a non-empty failure map and leaves `initialised`
false; and it returns nil exactly when afterwards every registered
recorder is initialised for this logger.  (An empty registry instead
yields `ErrNoRecorders` and leaves the flag false.) -/
theorem C4_amended (cfg : Config) (L : Logger)
    (attempt : RecorderID → Option RErr)
    (hcfg : cfg.globalDisable = false)
    (hinit : L.initialised = false)
    (hne : L.recs ≠ [])
    (hnd : (L.recs.map Prod.fst).Nodup) :
    ((initialise cfg L attempt).2 = none ∧
       (initialise cfg L attempt).1.initialised = true ∨
     (∃ br, (initialise cfg L attempt).2 = some (.batch br) ∧
       br.errors ≠ [] ∧ (initialise cfg L attempt).1.initialised = false)) ∧
    ((initialise cfg L attempt).2 = none ↔
      ∀ p ∈ (initialise cfg L attempt).1.recs, p.2.init = true) := by
  have hlen : ¬(L.recs.length = 0) := fun h => hne (List.length_eq_zero.mp h)
  have hspec := initLoop_spec attempt L.falseInitList L.recs initBr0
    hnd (fun k _ => ⟨by simp [initBr0, BatchResult.setMsg], by simp [initBr0, BatchResult.setMsg]⟩)
  have herr : (runInit attempt L).2.errors =
      initFails attempt L.falseInitList L.recs := by
    unfold runInit
    rw [hspec.2]
    rfl
  have hres1 : (runInit attempt L).1 =
      L.recs.map (fun p => (p.1, entryAfter attempt L.falseInitList p.1 p.2)) := by
    unfold runInit
    exact hspec.1
  have hrun : initialise cfg L attempt =
      (if (runInit attempt L).2.errors ≠ [] then
        ({ L with recs := (runInit attempt L).1 },
         some (.batch (runInit attempt L).2))
      else
        ({ L with initialised := true, recs := (runInit attempt L).1 }, none)) := by
    simp only [initialise, hcfg, Bool.false_eq_true, if_false, hinit, hlen,
      runInit, initBr0]
  by_cases hf : initFails attempt L.falseInitList L.recs = []
  · have hcond : ¬((runInit attempt L).2.errors ≠ []) := by
      rw [herr, hf]
      simp
    rw [hrun, if_neg hcond]
    have hall : ∀ p ∈ L.recs, entryFail attempt L.falseInitList p.1 p.2 = none := by
      intro p hp
      have h1 := (List.filterMap_eq_nil_iff.mp hf) p hp
      simp only [Option.map_eq_none'] at h1
      exact h1
    refine ⟨Or.inl ⟨rfl, rfl⟩, ?_⟩
    constructor
    · intro _ p hp
      simp only [hres1, List.mem_map] at hp
      obtain ⟨q, hq, hpq⟩ := hp
      rw [← hpq]
      exact (entryFail_none_iff attempt L.falseInitList q.1 q.2).mp (hall q hq)
    · intro _
      rfl
  · have hcond : (runInit attempt L).2.errors ≠ [] := by
      rw [herr]
      exact hf
    rw [hrun, if_pos hcond]
    refine ⟨Or.inr ⟨_, rfl, by rw [herr]; exact hf, by simpa using hinit⟩, ?_⟩
    constructor
    · intro h
      exact absurd h (by simp)
    · intro hall
      exfalso
      have hex : ∃ p ∈ L.recs, entryFail attempt L.falseInitList p.1 p.2 ≠ none := by
        by_contra hc
        push_neg at hc
        apply hf
        apply List.filterMap_eq_nil_iff.mpr
        intro p hp
        simp only [Option.map_eq_none']
        exact hc p hp
      obtain ⟨p, hp, hpf⟩ := hex
      have hmem : (p.1, entryAfter attempt L.falseInitList p.1 p.2) ∈
          (runInit attempt L).1 := by
        rw [hres1]
        exact List.mem_map.mpr ⟨p, hp, rfl⟩
      have hinit2 := hall _ hmem
      simp only at hinit2
      exact hpf ((entryFail_none_iff attempt L.falseInitList p.1 p.2).mpr hinit2)

/-- Witness for `C4_amended` at a concrete partial-failure input. -/
theorem C4_witness :
    ((initialise cfgDefault
        { initialised := false,
          recs := [("A", { init := false, mask := SeverityAll, order := defaultSeverityOrder }),
                   ("B", { init := false, mask := SeverityAll, order := defaultSeverityOrder })],
          defaults := [], falseInitList := [] }
        (fun id => if id = "B" then some (RErr.recorder 7) else none)).2 = none ↔
      ∀ p ∈ (initialise cfgDefault
        { initialised := false,
          recs := [("A", { init := false, mask := SeverityAll, order := defaultSeverityOrder }),
                   ("B", { init := false, mask := SeverityAll, order := defaultSeverityOrder })],
          defaults := [], falseInitList := [] }
        (fun id => if id = "B" then some (RErr.recorder 7) else none)).1.recs,
        p.2.init = true) :=
  (C4_amended cfgDefault _ _ rfl rfl (by decide) (by decide)).2

/-! ## Severity-protector lemmas -/

/-- Orders of all registered recorders contain only the ten severity
constants and all of them (true after registration: the default order is
installed and `ChangeSeverityOrder` only moves existing elements). -/
def ordersComplete (recs : List (RecorderID × RecEntry)) : Prop :=
  ∀ p ∈ recs, (∀ c ∈ p.2.order, c ∈ defaultSeverityOrder) ∧
    (∀ c ∈ defaultSeverityOrder, c ∈ p.2.order)

instance (recs : List (RecorderID × RecEntry)) : Decidable (ordersComplete recs) := by
  unfold ordersComplete
  infer_instance

theorem findRec_mem (recs : List (RecorderID × RecEntry)) (id : RecorderID)
    (e : RecEntry) (h : findRec recs id = some e) : (id, e) ∈ recs := by
  induction recs with
  | nil => simp [findRec] at h
  | cons p rest ih =>
    by_cases hk : p.1 = id
    · rw [findRec, if_pos hk] at h
      have h2 : p.2 = e := Option.some_inj.mp h
      have hp : p = (id, e) := by
        rw [← hk, ← h2]
      rw [← hp]
      exact List.mem_cons_self p rest
    · rw [findRec, if_neg hk] at h
      exact List.mem_cons_of_mem _ (ih h)

/-- A successful protector walk returns the attribute bits of the input
together with a single entry of the order list whose bit matched. -/
theorem protLoop_ok_shape (flags : MsgFlagT) (l : List MsgFlagT) (f : MsgFlagT)
    (h : protLoop flags l = .ok f) :
    ∃ c ∈ l, flags &&& 0x30FF &&& c > 0 ∧ f = (flags &&& 0xCF00) ||| c := by
  induction l with
  | nil => simp [protLoop] at h
  | cons sev rest ih =>
    rw [protLoop] at h
    by_cases hc : andNot flags SeverityShadowMask &&& sev > 0
    · rw [if_pos hc] at h
      refine ⟨sev, by simp, ?_, ?_⟩
      · rw [andNot_shadow] at hc
        exact hc
      · have h2 := (ProtRes.ok.injEq _ _).mp h.symm
        rw [h2, andNot_unshadow]
    · rw [if_neg hc] at h
      obtain ⟨c, hcl, hc1, hc2⟩ := ih h
      exact ⟨c, by simp [hcl], hc1, hc2⟩

/-- The protector picks exactly the first matching entry. -/
theorem protLoop_of_find (flags : MsgFlagT) (l : List MsgFlagT) (b : MsgFlagT)
    (hfind : l.find? (fun c => andNot flags SeverityShadowMask &&& c > 0) = some b) :
    protLoop flags l = .ok ((flags &&& 0xCF00) ||| b) := by
  induction l with
  | nil => simp at hfind
  | cons sev rest ih =>
    rw [List.find?_cons] at hfind
    rw [protLoop]
    cases hd : (decide (andNot flags SeverityShadowMask &&& sev > 0)) with
    | true =>
      have hc : andNot flags SeverityShadowMask &&& sev > 0 := of_decide_eq_true hd
      rw [if_pos hc]
      simp only [hd] at hfind
      rw [andNot_unshadow, Option.some_inj.mp hfind]
    | false =>
      have hc : ¬(andNot flags SeverityShadowMask &&& sev > 0) := of_decide_eq_false hd
      rw [if_neg hc]
      simp only [hd] at hfind
      exact ih hfind

/-- On a message whose severity portion is a single severity constant
present in the order list, the protector is the identity. -/
theorem protLoop_stable (flags : MsgFlagT) (hlt : flags < 65536)
    (b : MsgFlagT) (hb : b ∈ defaultSeverityOrder)
    (hsev : flags &&& 0x30FF = b) :
    ∀ l : List MsgFlagT, (∀ c ∈ l, c ∈ defaultSeverityOrder) → b ∈ l →
    protLoop flags l = .ok flags := by
  intro l
  induction l with
  | nil => intro _ hbl; simp at hbl
  | cons sev rest ih =>
    intro hsub hbl
    have hsevten : sev ∈ defaultSeverityOrder := hsub sev (by simp)
    rw [protLoop]
    by_cases hc : andNot flags SeverityShadowMask &&& sev > 0
    · rw [if_pos hc]
      have hbe : b = sev := by
        rw [andNot_shadow, hsev] at hc
        exact (sev_disjoint hb hsevten).mp (Nat.pos_iff_ne_zero.mp hc)
      rw [andNot_unshadow, ← hbe, singlebit_stable hlt hsev]
    · rw [if_neg hc]
      have hbne : b ≠ sev := by
        intro he
        apply hc
        rw [andNot_shadow, hsev, ← he]
        have hbb : b &&& b = b := Nat.and_self b
        rw [hbb]
        have hb0 : b ≠ 0 := by
          fin_cases hb <;> decide
        exact Nat.pos_of_ne_zero hb0
      apply ih (fun c hcr => hsub c (by simp [hcr]))
      rcases List.mem_cons.mp hbl with h | h
      · exact absurd h hbne
      · exact h

/-- For a complete order list and a nonzero severity portion the
protector walk always finds an entry. -/
theorem find_exists_of_complete (flags : MsgFlagT) (l : List MsgFlagT)
    (hsup : ∀ c ∈ defaultSeverityOrder, c ∈ l)
    (hnz : flags &&& 0x30FF ≠ 0) :
    ∃ b, l.find? (fun c => andNot flags SeverityShadowMask &&& c > 0) = some b := by
  obtain ⟨c, hcm, hcnz⟩ := sev_exists_match hnz
  have hcl : c ∈ l := hsup c hcm
  have hsome : (l.find? (fun c2 => andNot flags SeverityShadowMask &&& c2 > 0)).isSome := by
    rw [List.find?_isSome]
    refine ⟨c, hcl, ?_⟩
    simp only [andNot_shadow, decide_eq_true_eq]
    exact Nat.pos_of_ne_zero hcnz
  exact Option.isSome_iff_exists.mp hsome

/-! ## Message-level helper lemmas -/

theorem logMsg_set_flags_self (m : LogMsg) :
    ({ m with flags := m.flags } : LogMsg) = m := rfl

theorem applyStackTrace_flags (m : LogMsg) (st : String) :
    (applyStackTrace m st).flags = m.flags := by
  unfold applyStackTrace
  split_ifs <;> rfl

theorem applyStackTrace_time (m : LogMsg) (st : String) :
    (applyStackTrace m st).time = m.time := by
  unfold applyStackTrace
  split_ifs <;> rfl

theorem applyStackTrace_data (m : LogMsg) (st : String) :
    (applyStackTrace m st).Data = m.Data := by
  unfold applyStackTrace
  split_ifs <;> rfl

theorem normalizeSeverity_time (m : LogMsg) :
    (normalizeSeverity m).time = m.time := by
  unfold normalizeSeverity
  split_ifs <;> rfl

theorem normalizeSeverity_content (m : LogMsg) :
    (normalizeSeverity m).content = m.content := by
  unfold normalizeSeverity
  split_ifs <;> rfl

theorem normalizeSeverity_data (m : LogMsg) :
    (normalizeSeverity m).Data = m.Data := by
  unfold normalizeSeverity
  split_ifs <;> rfl

theorem lor_lt_two_pow16 {x y : Nat} (hx : x < 65536) (hy : y < 65536) :
    x ||| y < 65536 := by
  have h16 : (65536 : Nat) = 2 ^ 16 := by norm_num
  rw [h16] at hx hy ⊢
  exact Nat.bitwise_lt hx hy

theorem normalizeSeverity_flags_lt (m : LogMsg) (h : m.flags < 65536) :
    (normalizeSeverity m).flags < 65536 := by
  unfold normalizeSeverity
  split_ifs
  · exact lor_lt_two_pow16 h (by decide)
  · exact h

/-- After normalization the severity portion is nonzero. -/
theorem normalizeSeverity_sev_ne_zero (m : LogMsg) :
    (normalizeSeverity m).flags &&& 0x30FF ≠ 0 := by
  unfold normalizeSeverity
  rw [andNot_shadow]
  split_ifs with h
  · simp only [defaultSeverity, Info]
    rw [and_lor_right, h, Nat.zero_or]
    decide
  · exact h

/-- If the incoming severity portion is zero, the normalized severity
portion is exactly `Info`. -/
theorem normalizeSeverity_sev_zero (m : LogMsg) (h : m.flags &&& 0x30FF = 0) :
    (normalizeSeverity m).flags &&& 0x30FF = Info := by
  unfold normalizeSeverity
  rw [if_pos (by rw [andNot_shadow]; exact h)]
  simp only [defaultSeverity, Info]
  rw [and_lor_right, h, Nat.zero_or]
  decide

/-- If the incoming severity portion is nonzero, normalization leaves the
flags unchanged. -/
theorem normalizeSeverity_flags_of_ne (m : LogMsg) (h : m.flags &&& 0x30FF ≠ 0) :
    (normalizeSeverity m).flags = m.flags := by
  unfold normalizeSeverity
  rw [if_neg (by rw [andNot_shadow]; exact h)]

theorem updateRec_length (recs : List (RecorderID × RecEntry))
    (id : RecorderID) (e : RecEntry) :
    (updateRec recs id e).length = recs.length := by
  induction recs with
  | nil => rfl
  | cons p rest ih =>
    by_cases hk : p.1 = id
    · simp [updateRec, hk]
    · simp [updateRec, hk, ih]

theorem severityProtector_ok (ol : Option (List MsgFlagT)) (flags f : MsgFlagT)
    (h : severityProtector ol flags = .ok f) :
    ∃ l, ol = some l ∧ protLoop flags l = .ok f := by
  cases ol with
  | none => simp [severityProtector] at h
  | some l =>
    refine ⟨l, rfl, ?_⟩
    change (if l.length = 0 then ProtRes.errVal else protLoop flags l) = ProtRes.ok f at h
    by_cases hl : l.length = 0
    · rw [if_pos hl] at h
      exact absurd h (by simp)
    · rwa [if_neg hl] at h

/-- The dispatch loop never touches the time, content or user-data fields
of the shared message. -/
theorem deliverLoop_msg_fields (recsMap : List (RecorderID × RecEntry)) :
    ∀ (targets : List RecorderID) (msg : LogMsg)
      (sends : List (RecorderID × LogMsg)) (br : BatchResult),
    (deliverLoop recsMap targets msg sends br).1.time = msg.time ∧
    (deliverLoop recsMap targets msg sends br).1.content = msg.content ∧
    (deliverLoop recsMap targets msg sends br).1.Data = msg.Data := by
  intro targets
  induction targets with
  | nil => intro msg sends br; simp [deliverLoop]
  | cons recID rest ih =>
    intro msg sends br
    simp only [deliverLoop]
    cases hprot : severityProtector ((findRec recsMap recID).map
        (fun e => e.order)) msg.flags with
    | errVal =>
      simp only [hprot]
      exact ih msg _ _
    | fatal =>
      simp only [hprot]
      refine ⟨?_, ?_, ?_⟩ <;> trivial
    | ok f =>
      simp only [hprot]
      cases hfind : findRec recsMap recID with
      | none =>
        simp only [hfind]
        refine ⟨?_, ?_, ?_⟩ <;> trivial
      | some e =>
        simp only [hfind]
        by_cases hcond :
            andNot ({ msg with flags := f } : LogMsg).flags SeverityShadowMask
              &&& e.mask > 0
        · rw [if_pos hcond]
          exact ih { msg with flags := f } _ _
        · rw [if_neg hcond]
          exact ih { msg with flags := f } _ _

/-- On a message whose severity portion is a single severity constant, the
dispatch loop leaves the message unchanged, never panics, and every newly
sent copy equals the message. -/
theorem deliverLoop_stable (recsMap : List (RecorderID × RecEntry))
    (hWF : ordersComplete recsMap) (b : MsgFlagT)
    (hb : b ∈ defaultSeverityOrder) :
    ∀ (targets : List RecorderID) (msg : LogMsg)
      (sends : List (RecorderID × LogMsg)) (br : BatchResult),
    msg.flags < 65536 → msg.flags &&& 0x30FF = b →
    (deliverLoop recsMap targets msg sends br).1 = msg ∧
    (deliverLoop recsMap targets msg sends br).2.2.2 = false ∧
    (∀ p ∈ (deliverLoop recsMap targets msg sends br).2.1,
      p ∈ sends ∨ p.2 = msg) := by
  intro targets
  induction targets with
  | nil =>
    intro msg sends br _ _
    refine ⟨rfl, rfl, fun p hp => Or.inl (by simpa [deliverLoop] using hp)⟩
  | cons recID rest ih =>
    intro msg sends br hlt hsev
    simp only [deliverLoop]
    cases hfind : findRec recsMap recID with
    | none =>
      have hprot : severityProtector (Option.map (fun e2 => e2.order)
          (none : Option RecEntry)) msg.flags = .errVal := rfl
      simp only [hprot]
      exact ih msg _ _ hlt hsev
    | some e =>
      obtain ⟨hsubE, hsupE⟩ := hWF (recID, e) (findRec_mem _ _ _ hfind)
      have hbl : b ∈ e.order := hsupE b hb
      have hlen0 : ¬(e.order.length = 0) := by
        have := List.length_pos.mpr (List.ne_nil_of_mem hbl)
        omega
      have hprot : severityProtector (Option.map (fun e2 => e2.order)
          (some e)) msg.flags = .ok msg.flags := by
        change (if e.order.length = 0 then ProtRes.errVal
          else protLoop msg.flags e.order) = ProtRes.ok msg.flags
        rw [if_neg hlen0]
        exact protLoop_stable msg.flags hlt b hb hsev e.order hsubE hbl
      simp only [hprot]
      simp only [logMsg_set_flags_self]
      by_cases hcond : andNot msg.flags SeverityShadowMask &&& e.mask > 0
      · rw [if_pos hcond]
        obtain ⟨h1, h2, h3⟩ := ih msg (sends ++ [(recID, msg)]) (br.okRec recID) hlt hsev
        refine ⟨h1, h2, fun p hp => ?_⟩
        rcases h3 p hp with h | h
        · rcases List.mem_append.mp h with h4 | h4
          · exact Or.inl h4
          · right
            have : p = (recID, msg) := by simpa using h4
            rw [this]
        · exact Or.inr h
      · rw [if_neg hcond]
        exact ih msg _ _ hlt hsev

theorem sev_lt (b : MsgFlagT) (hb : b ∈ defaultSeverityOrder) : b < 65536 := by
  fin_cases hb <;> decide

/-- On a 16-bit message with a nonzero severity portion, dispatched over a
registry with complete order lists, the loop never panics, and every newly
sent copy equals the final mutated message. -/
theorem deliverLoop_run (recsMap : List (RecorderID × RecEntry))
    (hWF : ordersComplete recsMap) :
    ∀ (targets : List RecorderID) (msg : LogMsg)
      (sends : List (RecorderID × LogMsg)) (br : BatchResult),
    msg.flags < 65536 → msg.flags &&& 0x30FF ≠ 0 →
    (deliverLoop recsMap targets msg sends br).2.2.2 = false ∧
    (∀ p ∈ (deliverLoop recsMap targets msg sends br).2.1,
      p ∈ sends ∨ p.2 = (deliverLoop recsMap targets msg sends br).1) := by
  intro targets
  induction targets with
  | nil =>
    intro msg sends br _ _
    exact ⟨rfl, fun p hp => Or.inl (by simpa [deliverLoop] using hp)⟩
  | cons recID rest ih =>
    intro msg sends br hlt hnz
    simp only [deliverLoop]
    cases hfind : findRec recsMap recID with
    | none =>
      have hprot : severityProtector (Option.map (fun e2 => e2.order)
          (none : Option RecEntry)) msg.flags = .errVal := rfl
      simp only [hprot]
      exact ih msg _ _ hlt hnz
    | some e =>
      obtain ⟨hsubE, hsupE⟩ := hWF (recID, e) (findRec_mem _ _ _ hfind)
      obtain ⟨b, hbfind⟩ := find_exists_of_complete msg.flags e.order hsupE hnz
      have hbl : b ∈ e.order := List.mem_of_find?_eq_some hbfind
      have hbten : b ∈ defaultSeverityOrder := hsubE b hbl
      have hlen0 : ¬(e.order.length = 0) := by
        have := List.length_pos.mpr (List.ne_nil_of_mem hbl)
        omega
      have hprot : severityProtector (Option.map (fun e2 => e2.order)
          (some e)) msg.flags = .ok ((msg.flags &&& 0xCF00) ||| b) := by
        change (if e.order.length = 0 then ProtRes.errVal
          else protLoop msg.flags e.order) = ProtRes.ok ((msg.flags &&& 0xCF00) ||| b)
        rw [if_neg hlen0]
        exact protLoop_of_find msg.flags e.order b hbfind
      have hf1lt : (msg.flags &&& 0xCF00) ||| b < 65536 :=
        lor_lt_two_pow16
          (lt_of_le_of_lt (Nat.and_le_right) (by norm_num))
          (sev_lt b hbten)
      have hf1sev : ((msg.flags &&& 0xCF00) ||| b) &&& 0x30FF = b :=
        protOut_sev msg.flags hbten
      have hstable := deliverLoop_stable recsMap hWF b hbten rest
      simp only [hprot]
      by_cases hcond :
          andNot ({ msg with flags := (msg.flags &&& 0xCF00) ||| b } : LogMsg).flags
            SeverityShadowMask &&& e.mask > 0
      · rw [if_pos hcond]
        obtain ⟨h1, h2, h3⟩ := hstable { msg with flags := (msg.flags &&& 0xCF00) ||| b }
          (sends ++ [(recID, { msg with flags := (msg.flags &&& 0xCF00) ||| b })])
          (br.okRec recID) hf1lt hf1sev
        refine ⟨h2, fun p hp => ?_⟩
        rcases h3 p hp with h | h
        · rcases List.mem_append.mp h with h4 | h4
          · exact Or.inl h4
          · right
            have h5 : p = (recID, ({ msg with flags := (msg.flags &&& 0xCF00) ||| b } : LogMsg)) := by
              simpa using h4
            rw [h5, h1]
        · right
          rw [h, h1]
      · rw [if_neg hcond]
        obtain ⟨h1, h2, h3⟩ := hstable { msg with flags := (msg.flags &&& 0xCF00) ||| b }
          sends br hf1lt hf1sev
        refine ⟨h2, fun p hp => ?_⟩
        rcases h3 p hp with h | h
        · exact Or.inl h
        · right
          rw [h, h1]

/-- Every message the dispatch loop sends carries exactly one severity
bit (one of the ten severity constants), provided order lists hold only
severity constants. -/
theorem deliverLoop_sends_sev (recsMap : List (RecorderID × RecEntry))
    (hsub : ∀ p ∈ recsMap, ∀ c ∈ p.2.order, c ∈ defaultSeverityOrder) :
    ∀ (targets : List RecorderID) (msg : LogMsg)
      (sends : List (RecorderID × LogMsg)) (br : BatchResult)
      (p : RecorderID × LogMsg),
    p ∈ (deliverLoop recsMap targets msg sends br).2.1 →
    p ∈ sends ∨ ∃ b ∈ defaultSeverityOrder, p.2.flags &&& 0x30FF = b := by
  intro targets
  induction targets with
  | nil =>
    intro msg sends br p hp
    exact Or.inl (by simpa [deliverLoop] using hp)
  | cons recID rest ih =>
    intro msg sends br p hp
    simp only [deliverLoop] at hp
    cases hprot : severityProtector ((findRec recsMap recID).map
        (fun e => e.order)) msg.flags with
    | errVal =>
      simp only [hprot] at hp
      exact ih _ _ _ p hp
    | fatal =>
      simp only [hprot] at hp
      exact Or.inl (by simpa using hp)
    | ok f =>
      obtain ⟨l, hl, hshape⟩ := severityProtector_ok _ _ _ hprot
      cases hfind : findRec recsMap recID with
      | none =>
        rw [hfind] at hl
        simp at hl
      | some e =>
        rw [hfind] at hl
        have hle : l = e.order := by
          simpa using hl.symm
        obtain ⟨c, hcl, _, hcf⟩ := protLoop_ok_shape msg.flags l f hshape
        have hcten : c ∈ defaultSeverityOrder := by
          apply hsub (recID, e) (findRec_mem _ _ _ hfind)
          rw [← hle]
          exact hcl
        simp only [hprot] at hp
        simp only [hfind] at hp
        by_cases hcond :
            andNot ({ msg with flags := f } : LogMsg).flags SeverityShadowMask
              &&& e.mask > 0
        · rw [if_pos hcond] at hp
          rcases ih _ _ _ p hp with h | h
          · rcases List.mem_append.mp h with h1 | h1
            · exact Or.inl h1
            · right
              have h2 : p = (recID, ({ msg with flags := f } : LogMsg)) := by
                simpa using h1
              refine ⟨c, hcten, ?_⟩
              rw [h2]
              simp only
              rw [hcf]
              exact protOut_sev msg.flags hcten
          · exact Or.inr h
        · rw [if_neg hcond] at hp
          exact ih _ _ _ p hp

/-- Processing the first recipient rewrites the shared flags to the first
entry of that recipient's order list matching the (normalized) incoming
flags; every recipient of this call then receives exactly that bit. -/
theorem deliverLoop_head (recsMap : List (RecorderID × RecEntry))
    (hWF : ordersComplete recsMap) (t0 : RecorderID) (rest : List RecorderID)
    (msg : LogMsg) (sends : List (RecorderID × LogMsg)) (br : BatchResult)
    (e0 : RecEntry) (b : MsgFlagT)
    (hfind0 : findRec recsMap t0 = some e0)
    (hlt : msg.flags < 65536)
    (hb : e0.order.find? (fun c => andNot msg.flags SeverityShadowMask &&& c > 0) = some b) :
    (deliverLoop recsMap (t0 :: rest) msg sends br).1 =
      { msg with flags := (msg.flags &&& 0xCF00) ||| b } ∧
    (deliverLoop recsMap (t0 :: rest) msg sends br).2.2.2 = false ∧
    (∀ p ∈ (deliverLoop recsMap (t0 :: rest) msg sends br).2.1,
      p ∈ sends ∨ p.2 = { msg with flags := (msg.flags &&& 0xCF00) ||| b }) := by
  obtain ⟨hsubE, hsupE⟩ := hWF (t0, e0) (findRec_mem _ _ _ hfind0)
  have hbl : b ∈ e0.order := List.mem_of_find?_eq_some hb
  have hbten : b ∈ defaultSeverityOrder := hsubE b hbl
  have hlen0 : ¬(e0.order.length = 0) := by
    have := List.length_pos.mpr (List.ne_nil_of_mem hbl)
    omega
  have hf1lt : (msg.flags &&& 0xCF00) ||| b < 65536 :=
    lor_lt_two_pow16
      (lt_of_le_of_lt (Nat.and_le_right) (by norm_num))
      (sev_lt b hbten)
  have hf1sev : ((msg.flags &&& 0xCF00) ||| b) &&& 0x30FF = b :=
    protOut_sev msg.flags hbten
  have hstable := deliverLoop_stable recsMap hWF b hbten rest
  simp only [deliverLoop]
  rw [hfind0]
  have hprot : severityProtector (Option.map (fun e2 => e2.order)
      (some e0)) msg.flags = .ok ((msg.flags &&& 0xCF00) ||| b) := by
    change (if e0.order.length = 0 then ProtRes.errVal
      else protLoop msg.flags e0.order) = ProtRes.ok ((msg.flags &&& 0xCF00) ||| b)
    rw [if_neg hlen0]
    exact protLoop_of_find msg.flags e0.order b hb
  simp only [hprot]
  by_cases hcond :
      andNot ({ msg with flags := (msg.flags &&& 0xCF00) ||| b } : LogMsg).flags
        SeverityShadowMask &&& e0.mask > 0
  · rw [if_pos hcond]
    obtain ⟨h1, h2, h3⟩ := hstable { msg with flags := (msg.flags &&& 0xCF00) ||| b }
      (sends ++ [(t0, { msg with flags := (msg.flags &&& 0xCF00) ||| b })])
      (br.okRec t0) hf1lt hf1sev
    refine ⟨h1, h2, fun p hp => ?_⟩
    rcases h3 p hp with h | h
    · rcases List.mem_append.mp h with h4 | h4
      · exact Or.inl h4
      · right
        have h5 : p = (t0, ({ msg with flags := (msg.flags &&& 0xCF00) ||| b } : LogMsg)) := by
          simpa using h4
        rw [h5]
    · exact Or.inr h
  · rw [if_neg hcond]
    obtain ⟨h1, h2, h3⟩ := hstable { msg with flags := (msg.flags &&& 0xCF00) ||| b }
      sends br hf1lt hf1sev
    exact ⟨h1, h2, h3⟩

/-- On a single-severity-bit message, the dispatch loop is fully
determined by the severity masks of the registered recorders: two
registries that register the same ids with the same masks (their order
lists may differ, as long as both are complete) produce identical runs. -/
theorem deliverLoop_mask_det (R1 R2 : List (RecorderID × RecEntry))
    (hWF1 : ordersComplete R1) (hWF2 : ordersComplete R2)
    (hagree : ∀ k, (findRec R1 k).map (fun e => e.mask) =
      (findRec R2 k).map (fun e => e.mask))
    (b : MsgFlagT) (hb : b ∈ defaultSeverityOrder) :
    ∀ (targets : List RecorderID) (msg : LogMsg)
      (sends : List (RecorderID × LogMsg)) (br : BatchResult),
    msg.flags < 65536 → msg.flags &&& 0x30FF = b →
    deliverLoop R1 targets msg sends br = deliverLoop R2 targets msg sends br := by
  intro targets
  induction targets with
  | nil => intro msg sends br _ _; rfl
  | cons recID rest ih =>
    intro msg sends br hlt hsev
    have hag := hagree recID
    cases hfind1 : findRec R1 recID with
    | none =>
      cases hfind2 : findRec R2 recID with
      | some e2 =>
        rw [hfind1, hfind2] at hag
        simp at hag
      | none =>
        simp only [deliverLoop, hfind1, hfind2]
        have hprot : severityProtector (Option.map (fun e2 => e2.order)
            (none : Option RecEntry)) msg.flags = .errVal := rfl
        simp only [hprot]
        exact ih msg _ _ hlt hsev
    | some e1 =>
      cases hfind2 : findRec R2 recID with
      | none =>
        rw [hfind1, hfind2] at hag
        simp at hag
      | some e2 =>
        rw [hfind1, hfind2] at hag
        have hmask : e1.mask = e2.mask := by
          simpa using hag
        obtain ⟨hsubE1, hsupE1⟩ := hWF1 (recID, e1) (findRec_mem _ _ _ hfind1)
        obtain ⟨hsubE2, hsupE2⟩ := hWF2 (recID, e2) (findRec_mem _ _ _ hfind2)
        have hbl1 : b ∈ e1.order := hsupE1 b hb
        have hbl2 : b ∈ e2.order := hsupE2 b hb
        have hlen1 : ¬(e1.order.length = 0) := by
          have := List.length_pos.mpr (List.ne_nil_of_mem hbl1)
          omega
        have hlen2 : ¬(e2.order.length = 0) := by
          have := List.length_pos.mpr (List.ne_nil_of_mem hbl2)
          omega
        simp only [deliverLoop, hfind1, hfind2]
        have hprot1 : severityProtector (Option.map (fun e2 => e2.order)
            (some e1)) msg.flags = .ok msg.flags := by
          change (if e1.order.length = 0 then ProtRes.errVal
            else protLoop msg.flags e1.order) = ProtRes.ok msg.flags
          rw [if_neg hlen1]
          exact protLoop_stable msg.flags hlt b hb hsev e1.order hsubE1 hbl1
        have hprot2 : severityProtector (Option.map (fun e3 => e3.order)
            (some e2)) msg.flags = .ok msg.flags := by
          change (if e2.order.length = 0 then ProtRes.errVal
            else protLoop msg.flags e2.order) = ProtRes.ok msg.flags
          rw [if_neg hlen2]
          exact protLoop_stable msg.flags hlt b hb hsev e2.order hsubE2 hbl2
        simp only [hprot1, hprot2, logMsg_set_flags_self, ← hmask]
        by_cases hcond : andNot msg.flags SeverityShadowMask &&& e1.mask > 0
        · rw [if_pos hcond, if_pos hcond]
          exact ih msg _ _ hlt hsev
        · rw [if_neg hcond, if_neg hcond]
          exact ih msg _ _ hlt hsev

/-! ## Reduction of WriteMsg on an all-registered recipient list -/

theorem vLoop_all_known (reg : List (RecorderID × RecEntry)) :
    ∀ (r : Nat) (arr : List RecorderID) (curLen : Nat) (br : BatchResult)
      (i : Nat),
    (∀ k ∈ arr, (findRec reg k).isSome) → i + r = arr.length →
    vLoop reg arr curLen br i r = some (arr, curLen, br) := by
  intro r
  induction r with
  | zero => intro arr curLen br i _ _; rfl
  | succ r' ih =>
    intro arr curLen br i hall hlen
    rw [vLoop]
    have hmem : arr.getD i "" ∈ arr := by
      rw [List.getD_eq_getElem arr "" (by omega)]
      exact arr.getElem_mem (by omega)
    rw [if_pos (hall _ hmem)]
    exact ih arr curLen br (i + 1) hall (by omega)

/-- The batch result created by `WriteMsg`. -/
def wmBr0 : BatchResult :=
  BatchResult.setMsg {} "an error occurred in some of the given recorders"

theorem validate_all_known (reg : List (RecorderID × RecEntry))
    (recs : List RecorderID) (br : BatchResult)
    (h : ∀ k ∈ recs, (findRec reg k).isSome) :
    validateRecipients reg recs br = some (recs, br) := by
  unfold validateRecipients
  rw [vLoop_all_known reg recs.length recs recs.length br 0 h (by omega)]
  simp only [List.take_length]

/-- The tail of `WriteMsg` (stack trace, normalization, dispatch loop) on
an explicit target list. -/
def wmRun (L : Logger) (targets : List RecorderID) (msg : LogMsg)
    (st : String) : WMOut :=
  let r := deliverLoop L.recs targets (normalizeSeverity (applyStackTrace msg st)) [] wmBr0
  { msgOut := some r.1, sends := r.2.1, br := r.2.2.1, ret := none,
    panicked := r.2.2.2 }

/-- On an initialised logger and an explicit, fully registered recipient
list, `WriteMsg` runs the dispatch pipeline on exactly that list. -/
theorem writeMsg_run (cfg : Config) (L : Logger) (recsArg : List RecorderID)
    (msg : LogMsg) (st : String)
    (hcfg : cfg.globalDisable = false)
    (hinit : L.initialised = true)
    (hne : L.recs ≠ [])
    (hra : recsArg ≠ [])
    (hall : ∀ k ∈ recsArg, (findRec L.recs k).isSome) :
    writeMsg cfg L recsArg (some msg) st = wmRun L recsArg msg st := by
  have hlen : ¬(L.recs.length = 0) := by
    intro h
    exact hne (List.length_eq_zero.mp h)
  have hralen : recsArg.length > 0 := by
    cases recsArg with
    | nil => exact absurd rfl hra
    | cons a l => simp
  have h3 : ¬(L.defaults.length = 0 ∧ recsArg.length = 0) := by
    intro h
    omega
  have hval := validate_all_known L.recs recsArg wmBr0 hall
  simp only [writeMsg, hcfg, Bool.false_eq_true, if_false, hinit, hlen, h3,
    if_true, hralen, if_pos hralen]
  rw [show BatchResult.setMsg {} "an error occurred in some of the given recorders" = wmBr0 from rfl]
  rw [hval]
  rfl

/-! ## C3: per-recipient severity selection -/

/-- A recorder entry whose severity order was rearranged to consult `Info`
first (as `ChangeSeverityOrder` would produce). -/
def entryInfoFirst : RecEntry :=
  { init := true, mask := SeverityAll,
    order := [Info, Emerg, Alert, Critical, Error, Warning, Notice, Debug,
              CustomB1, CustomB2] }

def loggerC3 : Logger :=
  { initialised := true, recs := [("A", entryInited), ("B", entryInfoFirst)],
    defaults := [], falseInitList := [] }

def msgErrInfo : LogMsg :=
  { time := 0, flags := Error ||| Info, content := "x", Data := 0 }

/-- C3 (counterexample): with `A` on the default order and `B` ordered
`Info` first, `WriteMsg(["A","B"], msg)` with `msg.flags = Error|Info`
delivers severity `Error` to both recipients — although the first entry of
`B`'s own severity-order list whose bit is set in the incoming message is
`Info`.  The in-place protector rewrite (C9) makes the recipient-specific
choice of the claim unreachable for recipients after the first. -/
theorem C3_counterexample :
    ((writeMsg cfgDefault loggerC3 ["A", "B"] (some msgErrInfo) "").sends.map
      (fun p => (p.1, p.2.flags &&& 0x30FF))) = [("A", Error), ("B", Error)] ∧
    entryInfoFirst.order.find?
      (fun c => andNot msgErrInfo.flags SeverityShadowMask &&& c > 0) = some Info ∧
    Error ≠ Info := by
  refine ⟨by decide, by decide, by decide⟩

/-- C3 (amended): every delivered message carries exactly one severity bit
within `~SeverityShadowMask`; if the incoming severity portion is zero,
every recipient receives `Info`; otherwise the delivered bit is the first
entry of the FIRST recipient's severity-order list whose bit is set in the
incoming flags, and every later recipient receives that same bit (its own
order list only tie-breaks the already-reduced single bit). -/
theorem C3_amended (cfg : Config) (L : Logger) (recsArg : List RecorderID)
    (msg : LogMsg) (st : String)
    (hcfg : cfg.globalDisable = false)
    (hinit : L.initialised = true)
    (hne : L.recs ≠ [])
    (hra : recsArg ≠ [])
    (hall : ∀ k ∈ recsArg, (findRec L.recs k).isSome)
    (hWF : ordersComplete L.recs)
    (hflags : msg.flags < 65536) :
    (∀ p ∈ (writeMsg cfg L recsArg (some msg) st).sends,
      ∃ b ∈ defaultSeverityOrder, p.2.flags &&& 0x30FF = b) ∧
    (msg.flags &&& 0x30FF = 0 →
      ∀ p ∈ (writeMsg cfg L recsArg (some msg) st).sends,
        p.2.flags &&& 0x30FF = Info) ∧
    (∀ (t0 : RecorderID) (rest : List RecorderID) (e0 : RecEntry) (b : MsgFlagT),
      msg.flags &&& 0x30FF ≠ 0 →
      recsArg = t0 :: rest →
      findRec L.recs t0 = some e0 →
      e0.order.find? (fun c => andNot msg.flags SeverityShadowMask &&& c > 0) =
        some b →
      ∀ p ∈ (writeMsg cfg L recsArg (some msg) st).sends,
        p.2.flags &&& 0x30FF = b) := by
  have hrun := writeMsg_run cfg L recsArg msg st hcfg hinit hne hra hall
  have hm1flags : (applyStackTrace msg st).flags = msg.flags :=
    applyStackTrace_flags msg st
  refine ⟨?_, ?_, ?_⟩
  · intro p hp
    rw [hrun] at hp
    rcases deliverLoop_sends_sev L.recs (fun q hq => (hWF q hq).1)
        recsArg _ [] wmBr0 p (by simpa [wmRun] using hp) with h | h
    · simp at h
    · exact h
  · intro hz p hp
    rw [hrun] at hp
    have hm2sev : (normalizeSeverity (applyStackTrace msg st)).flags &&& 0x30FF = Info :=
      normalizeSeverity_sev_zero _ (by rw [hm1flags]; exact hz)
    have hm2lt : (normalizeSeverity (applyStackTrace msg st)).flags < 65536 :=
      normalizeSeverity_flags_lt _ (by rw [hm1flags]; exact hflags)
    obtain ⟨h1, h2, h3⟩ := deliverLoop_stable L.recs hWF Info (by decide)
      recsArg (normalizeSeverity (applyStackTrace msg st)) [] wmBr0 hm2lt hm2sev
    rcases h3 p (by simpa [wmRun] using hp) with h | h
    · simp at h
    · rw [h]
      exact hm2sev
  · intro t0 rest e0 b hnz hargs hfind0 hb p hp
    rw [hrun] at hp
    have hm2flags : (normalizeSeverity (applyStackTrace msg st)).flags = msg.flags := by
      rw [normalizeSeverity_flags_of_ne _ (by rw [hm1flags]; exact hnz), hm1flags]
    have hbten : b ∈ defaultSeverityOrder := by
      have hbl : b ∈ e0.order := List.mem_of_find?_eq_some hb
      exact ((hWF (t0, e0) (findRec_mem _ _ _ hfind0)).1) b hbl
    obtain ⟨h1, h2, h3⟩ := deliverLoop_head L.recs hWF t0 rest
      (normalizeSeverity (applyStackTrace msg st)) [] wmBr0 e0 b hfind0
      (by rw [hm2flags]; exact hflags) (by rw [hm2flags]; exact hb)
    rw [hargs] at hp
    rcases h3 p (by simpa [wmRun] using hp) with h | h
    · simp at h
    · rw [h]
      simp only
      rw [hm2flags]
      exact protOut_sev msg.flags hbten

/-- Witness for `C3_amended`: with recipient `B` (order `Info` first) as
the single — hence first — recipient, the incoming `Error|Info` message
is delivered with severity `Info`. -/
theorem C3_witness :
    ((writeMsg cfgDefault loggerC3 ["B"] (some msgErrInfo) "").sends.headD
      ("", msgPlain)).2.flags &&& 0x30FF = Info := by
  have h := (C3_amended cfgDefault loggerC3 ["B"] msgErrInfo "" rfl rfl
    (by decide) (by decide) (by decide) (by decide) (by decide)).2.2
    "B" [] entryInfoFirst Info (by decide) rfl (by decide) (by decide)
  exact h _ (by decide)

/-! ## C9: the protector mutates the shared message in place -/

theorem mem_updateRec (recs : List (RecorderID × RecEntry))
    (id : RecorderID) (e2 : RecEntry) (p : RecorderID × RecEntry)
    (hp : p ∈ updateRec recs id e2) : p ∈ recs ∨ p = (id, e2) := by
  induction recs with
  | nil => simp [updateRec] at hp
  | cons q rest ih =>
    by_cases hk : q.1 = id
    · rw [updateRec, if_pos hk] at hp
      rcases List.mem_cons.mp hp with h | h
      · exact Or.inr h
      · exact Or.inl (List.mem_cons_of_mem _ h)
    · rw [updateRec, if_neg hk] at hp
      rcases List.mem_cons.mp hp with h | h
      · exact Or.inl (by simp [h])
      · rcases ih h with h2 | h2
        · exact Or.inl (List.mem_cons_of_mem _ h2)
        · exact Or.inr h2

/-- Two registries that register the same ids with the same masks, whose
order lists are complete, and that agree on the first recipient's whole
entry, run the dispatch loop identically on it. -/
theorem deliverLoop_det_head (R1 R2 : List (RecorderID × RecEntry))
    (hWF1 : ordersComplete R1) (hWF2 : ordersComplete R2)
    (hagree : ∀ k, (findRec R1 k).map (fun e => e.mask) =
      (findRec R2 k).map (fun e => e.mask))
    (t0 : RecorderID) (rest : List RecorderID) (msg : LogMsg)
    (sends : List (RecorderID × LogMsg)) (br : BatchResult) (e0 : RecEntry)
    (hhead1 : findRec R1 t0 = some e0) (hhead2 : findRec R2 t0 = some e0)
    (hlt : msg.flags < 65536) (hnz : msg.flags &&& 0x30FF ≠ 0) :
    deliverLoop R1 (t0 :: rest) msg sends br =
      deliverLoop R2 (t0 :: rest) msg sends br := by
  obtain ⟨hsubE, hsupE⟩ := hWF1 (t0, e0) (findRec_mem _ _ _ hhead1)
  obtain ⟨b, hbfind⟩ := find_exists_of_complete msg.flags e0.order hsupE hnz
  have hbl : b ∈ e0.order := List.mem_of_find?_eq_some hbfind
  have hbten : b ∈ defaultSeverityOrder := hsubE b hbl
  have hlen0 : ¬(e0.order.length = 0) := by
    have := List.length_pos.mpr (List.ne_nil_of_mem hbl)
    omega
  have hf1lt : (msg.flags &&& 0xCF00) ||| b < 65536 :=
    lor_lt_two_pow16
      (lt_of_le_of_lt (Nat.and_le_right) (by norm_num))
      (sev_lt b hbten)
  have hf1sev : ((msg.flags &&& 0xCF00) ||| b) &&& 0x30FF = b :=
    protOut_sev msg.flags hbten
  have hprot : severityProtector (Option.map (fun e2 => e2.order)
      (some e0)) msg.flags = .ok ((msg.flags &&& 0xCF00) ||| b) := by
    change (if e0.order.length = 0 then ProtRes.errVal
      else protLoop msg.flags e0.order) = ProtRes.ok ((msg.flags &&& 0xCF00) ||| b)
    rw [if_neg hlen0]
    exact protLoop_of_find msg.flags e0.order b hbfind
  have hdet := deliverLoop_mask_det R1 R2 hWF1 hWF2 hagree b hbten rest
  simp only [deliverLoop]
  rw [hhead1, hhead2]
  simp only [hprot]
  by_cases hcond :
      andNot ({ msg with flags := (msg.flags &&& 0xCF00) ||| b } : LogMsg).flags
        SeverityShadowMask &&& e0.mask > 0
  · rw [if_pos hcond, if_pos hcond]
    exact hdet _ _ _ hf1lt hf1sev
  · rw [if_neg hcond, if_neg hcond]
    exact hdet _ _ _ hf1lt hf1sev

/-- C9 (confirmed): the severity protector mutates the shared message's
flags in place, so all copies delivered within one `WriteMsg` call carry
the same flags value (after the first recipient is processed the message
has a single severity bit, which all later recipients inherit); and a
later recipient's own severity-order list cannot change what is
delivered: replacing the order list of any recipient other than the first
by any other complete order list leaves the whole sends list unchanged. -/
theorem C9_shared_mutation (cfg : Config) (L : Logger)
    (recsArg : List RecorderID) (msg : LogMsg) (st : String)
    (hcfg : cfg.globalDisable = false)
    (hinit : L.initialised = true)
    (hne : L.recs ≠ [])
    (hra : recsArg ≠ [])
    (hall : ∀ k ∈ recsArg, (findRec L.recs k).isSome)
    (hWF : ordersComplete L.recs)
    (hflags : msg.flags < 65536) :
    (∀ p ∈ (writeMsg cfg L recsArg (some msg) st).sends,
      ∀ q ∈ (writeMsg cfg L recsArg (some msg) st).sends,
        p.2.flags = q.2.flags) ∧
    (∀ (t0 : RecorderID) (rest : List RecorderID) (id : RecorderID)
        (e : RecEntry) (o2 : List MsgFlagT),
      recsArg = t0 :: rest → id ≠ t0 →
      findRec L.recs id = some e →
      (∀ c ∈ o2, c ∈ defaultSeverityOrder) →
      (∀ c ∈ defaultSeverityOrder, c ∈ o2) →
      (writeMsg cfg { L with recs := updateRec L.recs id { e with order := o2 } }
        recsArg (some msg) st).sends =
      (writeMsg cfg L recsArg (some msg) st).sends) := by
  have hrun := writeMsg_run cfg L recsArg msg st hcfg hinit hne hra hall
  have hm1flags : (applyStackTrace msg st).flags = msg.flags :=
    applyStackTrace_flags msg st
  have hm2lt : (normalizeSeverity (applyStackTrace msg st)).flags < 65536 :=
    normalizeSeverity_flags_lt _ (by rw [hm1flags]; exact hflags)
  have hm2nz : (normalizeSeverity (applyStackTrace msg st)).flags &&& 0x30FF ≠ 0 := by
    have := normalizeSeverity_sev_ne_zero (applyStackTrace msg st)
    exact this
  constructor
  · intro p hp q hq
    rw [hrun] at hp hq
    obtain ⟨hpan, hsend⟩ := deliverLoop_run L.recs hWF recsArg
      (normalizeSeverity (applyStackTrace msg st)) [] wmBr0 hm2lt hm2nz
    rcases hsend p (by simpa [wmRun] using hp) with h | h
    · simp at h
    · rcases hsend q (by simpa [wmRun] using hq) with h2 | h2
      · simp at h2
      · rw [h, h2]
  · intro t0 rest id e o2 hargs hid hfind hsub2 hsup2
    have hlenL2 : ({ L with recs := updateRec L.recs id { e with order := o2 } } : Logger).recs ≠ [] := by
      simp only
      intro h
      apply hne
      have := updateRec_length L.recs id { e with order := o2 }
      rw [h] at this
      simp at this
      exact List.length_eq_zero.mp this.symm
    have hall2 : ∀ k ∈ recsArg,
        (findRec (updateRec L.recs id { e with order := o2 }) k).isSome := by
      intro k hk
      by_cases hkid : k = id
      · rw [hkid]
        rw [findRec_updateRec_self L.recs id _ (by simp [hfind])]
        rfl
      · rw [findRec_updateRec_ne L.recs id k _ hkid]
        exact hall k hk
    have hrun2 := writeMsg_run cfg
      { L with recs := updateRec L.recs id { e with order := o2 } }
      recsArg msg st hcfg hinit hlenL2 hra hall2
    rw [hrun, hrun2]
    have hWF2 : ordersComplete (updateRec L.recs id { e with order := o2 }) := by
      intro p hp
      rcases mem_updateRec L.recs id _ p hp with h | h
      · exact hWF p h
      · rw [h]
        exact ⟨hsub2, hsup2⟩
    have hagree : ∀ k, (findRec (updateRec L.recs id { e with order := o2 }) k).map
        (fun e => e.mask) = (findRec L.recs k).map (fun e => e.mask) := by
      intro k
      by_cases hkid : k = id
      · rw [hkid, findRec_updateRec_self L.recs id _ (by simp [hfind]), hfind]
        rfl
      · rw [findRec_updateRec_ne L.recs id k _ hkid]
    have ht0 : (findRec L.recs t0).isSome := hall t0 (by rw [hargs]; simp)
    obtain ⟨e0, he0⟩ := Option.isSome_iff_exists.mp ht0
    have he02 : findRec (updateRec L.recs id { e with order := o2 }) t0 = some e0 := by
      rw [findRec_updateRec_ne L.recs id t0 _ (Ne.symm hid)]
      exact he0
    have hdet := deliverLoop_det_head
      (updateRec L.recs id { e with order := o2 }) L.recs hWF2 hWF hagree
      t0 rest (normalizeSeverity (applyStackTrace msg st)) [] wmBr0 e0
      he02 he0 hm2lt hm2nz
    simp only [wmRun]
    rw [hargs]
    rw [hdet]

/-- The counterexample logger with `B`'s order list replaced by the
default order. -/
def loggerC3swapped : Logger :=
  { loggerC3 with
    recs := updateRec loggerC3.recs "B" { entryInfoFirst with order := defaultSeverityOrder } }

/-- Witness for `C9_shared_mutation`: in the two-recipient counterexample
state, both delivered copies carry the same flags, and replacing the
second recipient's order list by the default order changes nothing. -/
theorem C9_witness :
    (((writeMsg cfgDefault loggerC3 ["A", "B"] (some msgErrInfo) "").sends.headD
        ("", msgPlain)).2.flags =
      ((writeMsg cfgDefault loggerC3 ["A", "B"] (some msgErrInfo) "").sends.getD 1
        ("", msgPlain)).2.flags) ∧
    (writeMsg cfgDefault loggerC3swapped
        ["A", "B"] (some msgErrInfo) "").sends =
      (writeMsg cfgDefault loggerC3 ["A", "B"] (some msgErrInfo) "").sends := by
  constructor
  · exact (C9_shared_mutation cfgDefault loggerC3 ["A", "B"] msgErrInfo "" rfl rfl
      (by decide) (by decide) (by decide) (by decide) (by decide)).1
      _ (by decide) _ (by decide)
  · exact (C9_shared_mutation cfgDefault loggerC3 ["A", "B"] msgErrInfo "" rfl rfl
      (by decide) (by decide) (by decide) (by decide) (by decide)).2
      "A" ["B"] "B" entryInfoFirst defaultSeverityOrder rfl (by decide)
      (by decide) (by decide) (by decide)

/-! ## C10: WriteMsg mutates the caller's message; recipients get copies -/

theorem normalizeSeverity_attr (m : LogMsg) :
    (normalizeSeverity m).flags &&& 0xCF00 = m.flags &&& 0xCF00 := by
  unfold normalizeSeverity
  split_ifs
  · simp only
    rw [and_lor_right, show (defaultSeverity &&& 0xCF00 : Nat) = 0 by decide,
      Nat.or_zero]
  · rfl

/-- The dispatch loop preserves the attribute bits of the shared flags. -/
theorem deliverLoop_attr (recsMap : List (RecorderID × RecEntry))
    (hsub : ∀ p ∈ recsMap, ∀ c ∈ p.2.order, c ∈ defaultSeverityOrder) :
    ∀ (targets : List RecorderID) (msg : LogMsg)
      (sends : List (RecorderID × LogMsg)) (br : BatchResult),
    (deliverLoop recsMap targets msg sends br).1.flags &&& 0xCF00 =
      msg.flags &&& 0xCF00 := by
  intro targets
  induction targets with
  | nil => intro msg sends br; rfl
  | cons recID rest ih =>
    intro msg sends br
    simp only [deliverLoop]
    cases hprot : severityProtector ((findRec recsMap recID).map
        (fun e => e.order)) msg.flags with
    | errVal =>
      simp only [hprot]
      exact ih msg _ _
    | fatal => rfl
    | ok f =>
      obtain ⟨l, hl, hshape⟩ := severityProtector_ok _ _ _ hprot
      cases hfind : findRec recsMap recID with
      | none =>
        rw [hfind] at hl
        simp at hl
      | some e =>
        rw [hfind] at hl
        have hle : l = e.order := by
          simpa using hl.symm
        obtain ⟨c, hcl, _, hcf⟩ := protLoop_ok_shape msg.flags l f hshape
        have hcten : c ∈ defaultSeverityOrder := by
          apply hsub (recID, e) (findRec_mem _ _ _ hfind)
          rw [← hle]
          exact hcl
        have hattr : f &&& 0xCF00 = msg.flags &&& 0xCF00 := by
          rw [hcf]
          exact protOut_attr msg.flags hcten
        show (if andNot f SeverityShadowMask &&& e.mask > 0 then
            deliverLoop recsMap rest { msg with flags := f }
              (sends ++ [(recID, { msg with flags := f })]) (br.okRec recID)
          else
            deliverLoop recsMap rest { msg with flags := f } sends br).1.flags
            &&& 0xCF00 = msg.flags &&& 0xCF00
        by_cases hcond : andNot f SeverityShadowMask &&& e.mask > 0
        · rw [if_pos hcond]
          rw [ih { msg with flags := f } _ _]
          exact hattr
        · rw [if_neg hcond]
          rw [ih { msg with flags := f } _ _]
          exact hattr

/-- C10 (confirmed): `WriteMsg` mutates the caller's message in place —
the stack-trace attributes append a trace block to `content` and the
severity normalization rewrites `flags` (the attribute bits are kept) —
while `time` and `Data` are untouched; and every selected recipient is
sent a value copy equal to the final mutated message (so the delivered
copies are snapshots, unaffected by anything done to the caller's object
afterwards). -/
theorem C10_value_copies (cfg : Config) (L : Logger)
    (recsArg : List RecorderID) (msg : LogMsg) (st : String)
    (hcfg : cfg.globalDisable = false)
    (hinit : L.initialised = true)
    (hne : L.recs ≠ [])
    (hra : recsArg ≠ [])
    (hall : ∀ k ∈ recsArg, (findRec L.recs k).isSome)
    (hWF : ordersComplete L.recs)
    (hflags : msg.flags < 65536) :
    ∃ m2, (writeMsg cfg L recsArg (some msg) st).msgOut = some m2 ∧
      m2.time = msg.time ∧ m2.Data = msg.Data ∧
      (msg.flags &&& StackTraceShort > 0 →
        m2.content = msg.content ++ "\n" ++ shortTraceBlock st) ∧
      (msg.flags &&& StackTraceShort = 0 → msg.flags &&& StackTrace > 0 →
        m2.content = msg.content ++ "\n" ++ fullTraceBlock st) ∧
      (msg.flags &&& StackTraceShort = 0 → msg.flags &&& StackTrace = 0 →
        m2.content = msg.content) ∧
      m2.flags &&& 0xCF00 = msg.flags &&& 0xCF00 ∧
      (writeMsg cfg L recsArg (some msg) st).panicked = false ∧
      (∀ p ∈ (writeMsg cfg L recsArg (some msg) st).sends, p.2 = m2) := by
  have hrun := writeMsg_run cfg L recsArg msg st hcfg hinit hne hra hall
  rw [hrun]
  have hm1flags : (applyStackTrace msg st).flags = msg.flags :=
    applyStackTrace_flags msg st
  have hm2lt : (normalizeSeverity (applyStackTrace msg st)).flags < 65536 :=
    normalizeSeverity_flags_lt _ (by rw [hm1flags]; exact hflags)
  have hm2nz : (normalizeSeverity (applyStackTrace msg st)).flags &&& 0x30FF ≠ 0 :=
    normalizeSeverity_sev_ne_zero (applyStackTrace msg st)
  obtain ⟨hfa, hfb, hfc⟩ := deliverLoop_msg_fields L.recs recsArg
    (normalizeSeverity (applyStackTrace msg st)) [] wmBr0
  obtain ⟨hpan, hsend⟩ := deliverLoop_run L.recs hWF recsArg
    (normalizeSeverity (applyStackTrace msg st)) [] wmBr0 hm2lt hm2nz
  refine ⟨_, rfl, ?_, ?_, ?_, ?_, ?_, ?_, ?_, ?_⟩
  · rw [hfa, normalizeSeverity_time, applyStackTrace_time]
  · rw [hfc, normalizeSeverity_data, applyStackTrace_data]
  · intro hshort
    rw [hfb, normalizeSeverity_content]
    unfold applyStackTrace
    rw [if_pos hshort]
  · intro hshort hfull
    rw [hfb, normalizeSeverity_content]
    unfold applyStackTrace
    rw [if_neg (show ¬(msg.flags &&& StackTraceShort > 0) by rw [hshort]; simp),
      if_pos hfull]
  · intro hshort hfull
    rw [hfb, normalizeSeverity_content]
    unfold applyStackTrace
    rw [if_neg (show ¬(msg.flags &&& StackTraceShort > 0) by rw [hshort]; simp),
      if_neg (show ¬(msg.flags &&& StackTrace > 0) by rw [hfull]; simp)]
  · rw [deliverLoop_attr L.recs (fun q hq => (hWF q hq).1), normalizeSeverity_attr,
      hm1flags]
  · exact hpan
  · intro p hp
    rcases hsend p (by simpa [wmRun] using hp) with h | h
    · simp at h
    · exact h

def msgTrace : LogMsg :=
  { time := 3, flags := Error ||| StackTrace, content := "m", Data := 5 }

/-- Witness for `C10_value_copies` at a concrete message carrying the
full-stack-trace attribute. -/
theorem C10_witness :
    (writeMsg cfgDefault loggerR ["R"] (some msgTrace) "TT").msgOut.map
      (fun m => m.time) = some 3 ∧
    (writeMsg cfgDefault loggerR ["R"] (some msgTrace) "TT").msgOut.map
      (fun m => m.content) = some ("m" ++ "\n" ++ fullTraceBlock "TT") := by
  obtain ⟨m2, hm, ht, hd, hc1, hc2, hc3, hattr, hpan, hsends⟩ :=
    C10_value_copies cfgDefault loggerR ["R"] msgTrace "TT" rfl rfl
      (by decide) (by decide) (by decide) (by decide) (by decide)
  constructor
  · rw [hm]
    simp [ht, msgTrace]
  · rw [hm]
    simp [hc2 (by decide) (by decide), msgTrace]

/-! ## C1: WriteMsg discards the accumulated BatchResult -/

/-- C1 (code bug): with only `R` registered and initialised,
`WriteMsg(["R","ghost"], msg)` delivers to `R` and records
`ghost → WrongRecorderId` in the internal `BatchResult` — but the call
returns nil: the `if br.GetErrors() != nil { return br }` at the end of
`WriteMsg` is commented out in the source (xlog.go lines 966-968), so the
accumulated `BatchResult` is never returned.  The repo's own test
`WriteMsg@partial@WrongRec` (logger_test.go line 755) expects a non-nil
`BatchResult` from exactly this call, so the source contradicts its own
test suite. -/
theorem C1_code_eval :
    (writeMsg cfgDefault loggerR ["R", "ghost"] (some msgPlain) "").ret = none ∧
    (writeMsg cfgDefault loggerR ["R", "ghost"] (some msgPlain) "").br.errors =
      [("ghost", RErr.wrongRecorderID)] ∧
    (writeMsg cfgDefault loggerR ["R", "ghost"] (some msgPlain) "").sends.map
      Prod.fst = ["R"] ∧
    (writeMsg cfgDefault loggerR ["R", "ghost"] (some msgPlain) "").panicked =
      false := by
  refine ⟨by decide, by decide, by decide, by decide⟩

end Xlog
